import Mathlib

/-!
Verification development for the cover-letter chat backend.

The definitions below are a shallow embedding of the Python modules
`app/utils/placeholders.py`, `app/utils/text.py`,
`app/services/letter_service.py` and the chat orchestrator in
`app/routes/chat.py`.  Strings are modelled as Lean `String`
(lists of unicode scalar values, matching Python code points for the
ASCII inputs the heuristics inspect), machine-local effects
(current date, generated ids, clock, the language-model service and the
PDF renderer) are passed in explicitly, and the keyed stores are
modelled as lists or functions.  Case folding is modelled for the ASCII
range, which is what all fixed vocabularies in the source use.
-/

/-! ### Python-style character and string primitives -/

/-- Whitespace characters recognised by Python `str.split` / `str.strip`
(ASCII range). -/
def isPySpace (c : Char) : Bool :=
  c = ' ' || c = '\t' || c = '\n' || c = '\r' || c = '\x0b' || c = '\x0c'

/-- ASCII lowering, as performed by `str.lower` on the ASCII range. -/
def lowerChar (c : Char) : Char :=
  if 65 ≤ c.toNat ∧ c.toNat ≤ 90 then Char.ofNat (c.toNat + 32) else c

/-- Lower every character of a list (model of `str.lower`). -/
def lowerL (l : List Char) : List Char := l.map lowerChar

/-- Model of `str.lower` on `String`. -/
def strLower (s : String) : String := ⟨lowerL s.data⟩

/-- Strip leading and trailing whitespace from a character list
(model of `str.strip()`). -/
def pyStripL (l : List Char) : List Char :=
  ((l.dropWhile isPySpace).reverse.dropWhile isPySpace).reverse

/-- Model of `str.strip()` on `String`. -/
def pyStrip (s : String) : String := ⟨pyStripL s.data⟩

/-- Model of `str.split()`: split on whitespace runs, dropping empties.
The accumulator holds the reversed current word. -/
def pyWordsAux : List Char → List Char → List (List Char)
  | acc, [] => if acc = [] then [] else [acc.reverse]
  | acc, c :: cs =>
    if isPySpace c then
      if acc = [] then pyWordsAux [] cs else acc.reverse :: pyWordsAux [] cs
    else pyWordsAux (c :: acc) cs

/-- Model of `str.split()`. -/
def pyWords (l : List Char) : List (List Char) := pyWordsAux [] l

/-- Join words with single spaces. -/
def joinSp : List (List Char) → List Char
  | [] => []
  | [w] => w
  | w :: ws => w ++ ' ' :: joinSp ws

/-- Model of `" ".join(text.split())`: collapse whitespace runs to
single spaces and trim the ends. -/
def pyCollapse (s : String) : String := ⟨joinSp (pyWords s.data)⟩

/-- `" ".join(message.lower().split())`, the normalisation applied by all
intent heuristics. -/
def pyNormalize (s : String) : String := pyCollapse (strLower s)

/-- Boolean prefix test on character lists. -/
def isPre : List Char → List Char → Bool
  | [], _ => true
  | _ :: _, [] => false
  | p :: ps, c :: cs => if p = c then isPre ps cs else false

/-- Model of the Python substring test `pat in hay`. -/
def containsSub : List Char → List Char → Bool
  | [], pat => isPre pat []
  | c :: cs, pat => isPre pat (c :: cs) || containsSub cs pat

/-- Substring test on `String`. -/
def containsStr (hay pat : String) : Bool := containsSub hay.data pat.data

/-- Worker for `str.replace` with a non-empty pattern: replace each
leftmost, non-overlapping occurrence. -/
def replA (pat rep : List Char) : List Char → List Char
  | [] => []
  | c :: cs =>
    if isPre pat (c :: cs) then rep ++ replA pat rep (cs.drop (pat.length - 1))
    else c :: replA pat rep cs
termination_by l => l.length
decreasing_by
  · simp only [List.length_cons, List.length_drop]
    omega
  · simp only [List.length_cons]
    exact Nat.lt_succ_self _

/-- Model of Python `text.replace(pat, rep)` (replace all occurrences;
for an empty pattern Python interleaves `rep` around every character). -/
def pyReplace (t pat rep : List Char) : List Char :=
  if pat = [] then rep ++ t.foldr (fun c acc => c :: (rep ++ acc)) []
  else replA pat rep t

/-! ### `app/utils/placeholders.py` -/

/-- Head test for the regex `\[date\]` with `re.IGNORECASE`: do the six
characters spell a case-variant of the literal date token? -/
def dateTokHead (a b c e f g : Char) : Bool :=
  a = '[' && (b = 'd' || b = 'D') && (c = 'a' || c = 'A') &&
  (e = 't' || e = 'T') && (f = 'e' || f = 'E') && g = ']'

/-- Does a case-variant of `[date]` start at `a :: l`? -/
def patAt (a : Char) : List Char → Bool
  | b :: c :: e :: f :: g :: _ => dateTokHead a b c e f g
  | _ => false

/-- Does the text contain a case-variant of `[date]` anywhere? -/
def hasPat : List Char → Bool
  | [] => false
  | c :: cs => patAt c cs || hasPat cs

/-- Model of `LETTER_DATE_PLACEHOLDER_PATTERN.subn(date_line, text)`:
replace every (leftmost, non-overlapping) case-variant of `[date]` by
`d`, returning the new text and the number of replacements. -/
def subnDateF (d : List Char) : Nat → List Char → List Char × Nat
  | _, [] => ([], 0)
  | 0, l => (l, 0)
  | fuel + 1, c :: cs =>
    if patAt c cs then
      let r := subnDateF d fuel (cs.drop 5)
      (d ++ r.1, r.2 + 1)
    else
      let r := subnDateF d fuel cs
      (c :: r.1, r.2)

/-- Model of `LETTER_DATE_PLACEHOLDER_PATTERN.subn(date_line, text)`. -/
def subnDate (d l : List Char) : List Char × Nat := subnDateF d l.length l

/-- Model of `ensure_cover_letter_date`; `dateLine` stands for
`datetime.now().strftime("%B %d, %Y")`, which the source recomputes on
each call. -/
def ensure_cover_letter_date (dateLine text : String) : String :=
  let r := subnDate dateLine.data text.data
  if r.2 > 0 then ⟨r.1⟩
  else if pyStripL text.data = [] then dateLine
  else text

/-- Regex scanner for `\[[^\[\]]+\]` (`re.findall` semantics): the state
carries the reversed interior of a candidate token opened by `[`. -/
def scanAux : Option (List Char) → List Char → List (List Char)
  | _, [] => []
  | none, c :: cs => if c = '[' then scanAux (some []) cs else scanAux none cs
  | some acc, c :: cs =>
    if c = ']' then
      if acc = [] then scanAux none cs
      else ('[' :: (acc.reverse ++ [']'])) :: scanAux none cs
    else if c = '[' then scanAux (some []) cs
    else scanAux (some (c :: acc)) cs

/-- Characters removed by `token.strip("[] ")`. -/
def isBrSp (c : Char) : Bool := c = '[' || c = ']' || c = ' '

/-- Model of `token.strip("[] ")`. -/
def stripBrSp (l : List Char) : List Char :=
  ((l.dropWhile isBrSp).reverse.dropWhile isBrSp).reverse

/-- The normalised key a token contributes to `find_unknown_placeholders`
(`None` when the token is skipped). -/
def unknownKey (tok : List Char) : Option String :=
  if lowerL tok = "[date]".data then none
  else
    let n := stripBrSp tok
    if n = [] then none else some ⟨n⟩

/-- Code-point comparison on character lists (Python string `<`). -/
def lexLt : List Char → List Char → Bool
  | [], [] => false
  | [], _ :: _ => true
  | _ :: _, [] => false
  | a :: as, b :: bs =>
    if a.toNat < b.toNat then true
    else if b.toNat < a.toNat then false
    else lexLt as bs

/-- Python string comparison `a < b` by code points. -/
def strLtB (a b : String) : Bool := lexLt a.data b.data

/-- Insert into a sorted duplicate-free list, keeping it sorted and
duplicate-free. -/
def insSorted (s : String) : List String → List String
  | [] => [s]
  | x :: xs =>
    if s = x then x :: xs
    else if strLtB s x then s :: x :: xs
    else x :: insSorted s xs

/-- Model of Python `sorted(set(l))`: ascending distinct elements. -/
def sortedDedup (l : List String) : List String :=
  l.foldr insSorted []

/-- Model of `find_unknown_placeholders`. -/
def find_unknown_placeholders (text : String) : List String :=
  sortedDedup ((scanAux none text.data).filterMap unknownKey)

/-- Model of `collect_unknown_placeholder_tokens`: an insertion-ordered
association list from normalised key to the literal tokens found. -/
def addTok (m : List (String × List String)) (k tok : String) :
    List (String × List String) :=
  match m with
  | [] => [(k, [tok])]
  | (k', toks) :: rest =>
    if k' = k then (k', toks ++ [tok]) :: rest else (k', toks) :: addTok rest k tok

/-- The normalised key used by `collect_unknown_placeholder_tokens`:
`token.strip("[] ").strip().lower()`. -/
def collectKey (tok : List Char) : List Char :=
  lowerL (pyStripL (stripBrSp tok))

/-- Model of `collect_unknown_placeholder_tokens`. -/
def collect_unknown_placeholder_tokens (text : String) :
    List (String × List String) :=
  (scanAux none text.data).foldl
    (fun m tok =>
      if lowerL tok = "[date]".data then m
      else
        let key := collectKey tok
        if key = [] then m else addTok m ⟨key⟩ ⟨tok⟩)
    []

/-- Model of the Python `dict.get(key)` read used by
`apply_placeholder_updates` (absent key and empty list both skip). -/
def getToks (m : List (String × List String)) (k : String) : List String :=
  match m.find? (fun e => e.1 = k) with
  | some e => e.2
  | none => []

/-- Model of `apply_placeholder_updates`. -/
def apply_placeholder_updates (text : String) (updates : List (String × String))
    (placeholders : List (String × List String)) : String × Bool :=
  if updates = [] then (text, false)
  else
    updates.foldl
      (fun st kv =>
        let toks := getToks placeholders kv.1
        if toks = [] then st
        else
          let safe := pyStrip kv.2
          toks.foldl
            (fun st2 tok =>
              if containsSub st2.1.data tok.data then
                (⟨pyReplace st2.1.data tok.data safe.data⟩, true)
              else st2)
            st)
      (text, false)

example : find_unknown_placeholders "[Name] [NAME]" = ["NAME", "Name"] := by decide
example : find_unknown_placeholders "[date ]" = ["date"] := by decide
example : find_unknown_placeholders "[Date] no brackets" = [] := by decide
example : ensure_cover_letter_date "October 12, 2026" " " = "October 12, 2026" := by decide
example : ensure_cover_letter_date "October 12, 2026" "Dear [DATE] x" =
    "Dear October 12, 2026 x" := by decide
example :
    getToks (collect_unknown_placeholder_tokens "a[Address]b[Address]c") "address" =
      ["[Address]", "[Address]"] := by decide

/-! ### `app/utils/text.py` -/

/-- The fixed vocabulary of job-posting signal phrases. -/
def job_signals : List String :=
  ["job description", "responsibilities", "requirements", "qualifications",
   "what you will do", "what you\x27ll do", "about the role", "about you",
   "preferred skills"]

/-- Number of signal phrases occurring in the lowered text. -/
def jobSignalCount (lowered : String) : Nat :=
  (job_signals.filter (fun term => containsStr lowered term)).length

/-- Model of `looks_like_job_description`. -/
def looks_like_job_description (text : String) : Bool :=
  let lowered := strLower text
  jobSignalCount lowered ≥ 2 && lowered.data.length > 250

/-- Model of `make_text_excerpt`. -/
def make_text_excerpt (text : String) (limit : Nat) : String :=
  if text = "" then "" else ⟨(pyCollapse text).data.take limit⟩

/-! ### `app/services/letter_service.py` -/

def LETTER_READY_FOLLOW_UP : String :=
  "\n\nWhen you\x27re satisfied, ask me to generate your PDF. Otherwise, let me know what you\x27d like to revise."

def ADJUSTMENT_KEYWORDS : List String :=
  ["adjust", "tweak", "change", "revise", "rewrite", "shorter", "longer",
   "tone", "friendlier", "formal", "casual", "add", "include", "remove",
   "emphasize", "highlight", "focus on", "soften", "strengthen", "update",
   "polish", "human"]

def JOB_DESCRIPTION_MAX_LENGTH : Nat := 5000

def DEFAULT_THREAD_ID : String := "default"

/-- Model of `appears_to_be_cover_letter`. -/
def appears_to_be_cover_letter (text : String) : Bool :=
  if text = "" || text.data.length < 200 then false
  else
    let lower := strLower text
    (containsStr lower "dear " || containsStr lower "to whom it may concern" ||
      containsStr lower "hiring manager") &&
    (containsStr lower "sincerely" || containsStr lower "regards" ||
      containsStr lower "respectfully" || containsStr lower "best wishes")

/-- Model of `_normalize_thread_id` (a `None` thread id is the empty
string case of `thread_id or ""`). -/
def normThread (thread_id : Option String) : String :=
  let normalized := pyStrip (thread_id.getD "")
  if normalized = "" then DEFAULT_THREAD_ID else normalized

/-- Model of `_thread_key`. -/
def threadKey (profile_id : String) (thread_id : Option String) : String :=
  profile_id ++ "::" ++ normThread thread_id

/-- Model of `", ".join(fields)`. -/
def joinCommaSp : List String → String
  | [] => ""
  | [x] => x
  | x :: xs => x ++ ", " ++ joinCommaSp xs

/-- Model of `letter_follow_up_text`. -/
def letter_follow_up_text (missing_fields : List String) : String :=
  if missing_fields ≠ [] then
    "\n\nI still need the following details before the PDF is ready: " ++
      joinCommaSp missing_fields ++ "."
  else LETTER_READY_FOLLOW_UP

/-- A cover letter record (`cover_letters` store entry). -/
structure Letter where
  id : String
  profile_id : String
  thread_id : String
  text : String
  created_at : Nat
  updated_at : Nat
  header_date : Option String
deriving DecidableEq, Repr

/-- Split on newline characters (model of `str.splitlines` for texts
using plain newlines). -/
def splitLinesAux : List Char → List Char → List (List Char)
  | acc, [] => [acc.reverse]
  | acc, c :: cs => if c = '\n' then acc.reverse :: splitLinesAux [] cs else splitLinesAux (c :: acc) cs

/-- Model of `_first_nonempty_line`. -/
def first_nonempty_line (text : String) : Option String :=
  match (splitLinesAux [] text.data).filterMap
      (fun l => let s := pyStripL l; if s = [] then none else some s) with
  | [] => none
  | l :: _ => some ⟨l⟩

/-- Model of `save_cover_letter`; the clock and generated id are passed
in for `now_millis()` and `generate_token("letter")`. -/
def save_cover_letter (dateLine : String) (now : Nat) (freshId : String)
    (letters : List Letter) (profile_id : String) (thread_id : Option String)
    (text : String) (letter_id : Option String) :
    String × String × List Letter :=
  let formatted := ensure_cover_letter_date dateLine text
  let header_line := first_nonempty_line formatted
  let normalized_thread := normThread thread_id
  let fresh : Letter :=
    { id := freshId, profile_id := profile_id, thread_id := normalized_thread,
      text := formatted, created_at := now, updated_at := now,
      header_date := header_line }
  match letter_id with
  | some lid =>
    if letters.any (fun r => r.id = lid) then
      (lid, formatted, letters.map (fun r =>
        if r.id = lid then
          { r with text := formatted, updated_at := now,
                   thread_id := normalized_thread, header_date := header_line }
        else r))
    else
      (freshId, formatted, letters ++ [fresh])
  | none =>
    (freshId, formatted, letters ++ [fresh])

/-- A stored job description snapshot. -/
structure JobDesc where
  profile_id : String
  thread_id : String
  text : String
  excerpt : String
  stored_at : Nat
deriving DecidableEq, Repr

/-- Model of `store_job_description`; the keyed dict `job_descriptions`
is modelled as a function from key to optional record, and `now_millis()`
is passed in. -/
def store_job_description (store : String → Option JobDesc)
    (profile_id : String) (thread_id : Option String) (text : String)
    (now : Nat) : String → Option JobDesc :=
  let cleaned := pyCollapse text
  if cleaned = "" then store
  else
    let limited : String := ⟨cleaned.data.take JOB_DESCRIPTION_MAX_LENGTH⟩
    let excerpt := make_text_excerpt limited 600
    fun k =>
      if k = threadKey profile_id thread_id then
        some { profile_id := profile_id, thread_id := normThread thread_id,
               text := limited, excerpt := excerpt, stored_at := now }
      else store k

/-- Model of `latest_job_description_for_thread`. -/
def latest_job_description_for_thread (store : String → Option JobDesc)
    (profile_id : String) (thread_id : Option String) : Option JobDesc :=
  store (threadKey profile_id thread_id)

/-- Model of `message_is_job_description`. -/
def message_is_job_description (message : String) : Bool :=
  looks_like_job_description message

/-- Python `max(xs, key)` keeps the first element whose key is strictly
greater than the running maximum; `keyGt` is tuple comparison `>`. -/
def keyGt (a b : Nat × Nat) : Bool :=
  decide (b.1 < a.1 ∨ (a.1 = b.1 ∧ b.2 < a.2))

def pyMaxBy {α : Type} (key : α → Nat × Nat) : α → List α → α
  | best, [] => best
  | best, r :: rs => pyMaxBy key (if keyGt (key r) (key best) then r else best) rs

/-- Model of `latest_cover_letter_for_thread`: records matching profile
and normalised thread, maximised by creation timestamp. -/
def latest_cover_letter_for_thread (letters : List Letter)
    (profile_id : String) (thread_id : Option String) : Option Letter :=
  let normalized := normThread thread_id
  match letters.filter (fun r =>
      r.profile_id = profile_id && normThread (some r.thread_id) = normalized) with
  | [] => none
  | m :: ms => some (pyMaxBy (fun r => (r.created_at, 0)) m ms)

/-- An uploaded file record (`uploaded_files` store entry). -/
structure Upload where
  id : String
  profile_id : String
  name : String
  mime_type : String
  uploaded_at : Nat
  size : Nat
  text : Option String
deriving DecidableEq, Repr

/-- The priority pair computed by `_priority` inside
`select_resume_upload`. -/
def uploadSortKey (r : Upload) : Nat × Nat :=
  (if containsStr (strLower r.name) "resume" || containsStr (strLower r.name) "cv" then 2
   else if strLower r.mime_type = "application/pdf" then 1
   else 0,
   r.uploaded_at)

/-- Model of `select_resume_upload`. -/
def select_resume_upload (uploads : List Upload) (profile_id : String) :
    Option Upload :=
  match uploads.filter (fun r => r.profile_id = profile_id) with
  | [] => none
  | m :: ms => some (pyMaxBy uploadSortKey m ms)

/-- Model of `looks_like_letter_adjustment`. -/
def adjustment_starters : List String :=
  ["can you", "could you", "please", "update ", "change "]

def looks_like_letter_adjustment (message : String) : Bool :=
  let normalized := pyNormalize message
  if normalized = "" then false
  else if isPre "create pdf".data normalized.data ||
      isPre "download pdf".data normalized.data then false
  else if isPre "make it ".data normalized.data then true
  else if adjustment_starters.any (fun s => isPre s.data normalized.data) then true
  else ADJUSTMENT_KEYWORDS.any (fun k => containsStr normalized k)

/-- Model of `should_draft_cover_letter`. -/
def explicit_cover_phrases : List String :=
  ["cover letter", "cover-letter", "application letter"]

def request_verbs : List String :=
  ["write", "draft", "create", "craft", "prepare", "generate"]

def should_draft_cover_letter (message : String) (attachments : List Upload)
    (has_request_intent : Bool) (requests_cover_letter : Bool) : Bool :=
  let normalized := pyNormalize message
  if normalized = "" then false
  else if explicit_cover_phrases.any (fun p => containsStr normalized p) then true
  else if request_verbs.any (fun v => containsStr normalized v) &&
      containsStr normalized "letter" then true
  else if looks_like_job_description message then
    requests_cover_letter || has_request_intent
  else if attachments ≠ [] && request_verbs.any (fun v => containsStr normalized v) then
    true
  else false

/-- Model of `build_fallback_reply`. -/
def build_fallback_reply (should_draft has_attachments has_job_description : Bool) :
    String :=
  if should_draft then
    "Working on your cover letter request.\n" ++
      (if has_attachments then
        "I\x27ll incorporate your uploaded materials while drafting the letter."
      else "Upload your resume to help me personalize the cover letter.")
  else
    "Hi! I\x27m ApplyWise, your cover letter co-pilot.\n" ++
      "Share a job description when you\x27re ready and I\x27ll draft a tailored cover letter for you.\n" ++
      (if !has_attachments then "You can upload your resume for more personalization."
       else "I have your materials; send the job details or ask for tips when you\x27re ready.") ++
      (if has_job_description then
        "\nI\x27ve saved the role details you shared; just tell me when to start drafting."
      else "")

/-- The fixed trigger phrase list inside `detect_pdf_request`. -/
def pdf_patterns : List String :=
  ["create pdf", "make pdf", "generate pdf", "build pdf", "draft pdf",
   "write pdf", "produce pdf",
   "create a pdf", "make a pdf", "generate a pdf", "build a pdf",
   "draft a pdf", "write a pdf",
   "print to pdf", "export to pdf", "save as pdf", "save to pdf",
   "download pdf", "download as pdf", "convert to pdf", "turn into pdf",
   "change to pdf",
   "pdf version", "pdf format", "pdf file", "pdf copy", "pdf document",
   "pdf", "pdf this", "pdf it", "pdf please", "pdf now", "pdf that",
   "can you pdf", "could you pdf", "will you pdf", "would you pdf",
   "please pdf",
   "create file", "make file", "generate file", "download file",
   "export file", "save file",
   "create a file", "make a file", "generate a file", "download a file",
   "export a file", "save a file",
   "as pdf", "to pdf", "in pdf", "into pdf"]

def resume_terms : List String := ["resume", "cv", "curriculum vitae"]

def cover_letter_terms : List String :=
  ["cover letter", "cover-letter", "coverletter", "application letter"]

/-- Model of `detect_pdf_request`. -/
def detect_pdf_request (message : String) : Option String :=
  let normalized := pyNormalize message
  if normalized = "" then none
  else if pdf_patterns.any (fun p => containsStr normalized p) then
    if resume_terms.any (fun t => containsStr normalized t) then some "resume"
    else if cover_letter_terms.any (fun p => containsStr normalized p) then
      some "cover_letter"
    else some "cover_letter"
  else none

/-- Model of `detect_resume_review_request`. -/
def review_patterns : List String :=
  ["review", "critique", "feedback", "look at", "check", "evaluate",
   "assess", "analyze", "improve", "suggestions", "advice", "help with",
   "tips", "enhance", "optimize", "fix", "better", "stronger",
   "thoughts on", "opinion on", "what do you think"]

def review_specific_phrases : List String :=
  ["review my resume", "review the resume", "look at my resume",
   "check my resume", "feedback on my resume", "thoughts on my resume",
   "help with my resume", "improve my resume", "make my resume better",
   "resume feedback", "resume review", "resume advice", "resume tips",
   "resume suggestions", "what do you think of my resume",
   "can you review", "could you review", "please review"]

def detect_resume_review_request (message : String) : Bool :=
  let normalized := pyNormalize message
  if normalized = "" then false
  else
    ((resume_terms.any (fun t => containsStr normalized t)) &&
      (review_patterns.any (fun p => containsStr normalized p))) ||
    (review_specific_phrases.any (fun p => containsStr normalized p))

example : detect_pdf_request "create pdf" = some "cover_letter" := by decide
example : detect_pdf_request "I don\x27t want a pdf" = some "cover_letter" := by decide
example : detect_pdf_request "pdf my resume please" = some "resume" := by decide
example : detect_pdf_request "hello there" = none := by decide

/-! ### `parse_placeholder_updates` and `_match_placeholder_key` -/

/-- ASCII letter test (the regex class `[A-Za-z]`). -/
def isAlphaAscii (c : Char) : Bool :=
  (65 ≤ c.toNat && c.toNat ≤ 90) || (97 ≤ c.toNat && c.toNat ≤ 122)

/-- The regex class `[A-Za-z\s]` used for placeholder keys. -/
def isKeyChar (c : Char) : Bool := isAlphaAscii c || isPySpace c

/-- Case-insensitive literal prefix test (the pattern is given in
lowercase). -/
def ciStarts (pat : String) (l : List Char) : Bool := isPre pat.data (lowerL l)

/-- The value group of `\s*(.+)$`: greedy whitespace, backtracking one
whitespace character when nothing else remains. -/
def group1Value (rest : List Char) : List Char :=
  let v := rest.dropWhile isPySpace
  if v = [] then rest.reverse.take 1 else v

/-- Backtracking match of
`^(?P<key>[A-Za-z][A-Za-z\s]{0,50})\s*[:=-]\s*(?P<value>.+)$`:
the greedy key is the key-class run capped at 51 characters, the
separator must be the first non-key character. -/
def tryMatchColon (line : List Char) : Option (List Char × List Char) :=
  let kRun := line.takeWhile isKeyChar
  match kRun with
  | [] => none
  | k0 :: _ =>
    if !isAlphaAscii k0 then none
    else if !(kRun.drop 51).all isPySpace then none
    else
      match line.drop kRun.length with
      | sep :: rest =>
        if (sep = ':' || sep = '=' || sep = '-') && rest ≠ [] then
          some (kRun.take 51, group1Value rest)
        else none
      | [] => none

def parse_verbs : List String := ["set", "update", "change", "use", "replace"]

def parse_seps : List String := ["to", "as", "=", "is"]

/-- Backtracking match of
`^(?:please\s+)?(?:set|update|change|use|replace)\s+(?P<key>[A-Za-z][A-Za-z\s]{0,50})\s+(?:to|as|=|is)\s*(?P<value>.+)$`
(case-insensitive).  Key lengths are tried greedily from longest to
shortest, alternations in source order. -/
def tryMatchVerb (line : List Char) : Option (List Char × List Char) :=
  let pleaseCands : List (List Char) :=
    if ciStarts "please" line then
      let r := line.drop 6
      if r.takeWhile isPySpace ≠ [] then [r.dropWhile isPySpace, line] else [line]
    else [line]
  pleaseCands.findSome? fun cand =>
    parse_verbs.findSome? fun verb =>
      if ciStarts verb cand then
        let r1 := cand.drop verb.data.length
        if r1.takeWhile isPySpace = [] then none
        else
          let r2 := r1.dropWhile isPySpace
          let kRun := r2.takeWhile isKeyChar
          match kRun with
          | [] => none
          | k0 :: _ =>
            if !isAlphaAscii k0 then none
            else
              let maxLen := min 51 kRun.length
              (List.range maxLen).findSome? fun i =>
                let keyLen := maxLen - i
                let key := r2.take keyLen
                let rest := r2.drop keyLen
                if rest.takeWhile isPySpace = [] then none
                else
                  let r3 := rest.dropWhile isPySpace
                  parse_seps.findSome? fun sep =>
                    if ciStarts sep r3 then
                      let r4 := r3.drop sep.data.length
                      if r4 = [] then none else some (key, group1Value r4)
                    else none
      else none

/-- Model of `_match_placeholder_key`. -/
def matchPlaceholderKey (candidate : String) (choices : List String) :
    Option String :=
  let cl := strLower (pyStrip candidate)
  if cl = "" then none
  else
    match choices.find? (fun ch => ch = cl) with
    | some ch => some ch
    | none =>
      match choices.find? (fun ch => containsStr ch cl) with
      | some ch => some ch
      | none => choices.find? (fun ch => containsStr cl ch)

/-- Split on `;` and newlines, keeping empty segments
(`re.split(r"[;\n]", s)`). -/
def splitSemiNl : List Char → List Char → List (List Char)
  | acc, [] => [acc.reverse]
  | acc, c :: cs =>
    if c = ';' || c = '\n' then acc.reverse :: splitSemiNl [] cs
    else splitSemiNl (c :: acc) cs

/-- Insertion-ordered `dict` write `updates[matched] = value`. -/
def upsert (m : List (String × String)) (k v : String) :
    List (String × String) :=
  match m with
  | [] => [(k, v)]
  | (k', v') :: rest =>
    if k' = k then (k, v) :: rest else (k', v') :: upsert rest k v

/-- Fold one matched line into the updates dict (strip key and value,
skip empty values, resolve the key against the available keys). -/
def applyParsedLine (available_keys : List String)
    (ups : List (String × String)) (kv : List Char × List Char) :
    List (String × String) :=
  let value := pyStripL kv.2
  if value = [] then ups
  else
    match matchPlaceholderKey ⟨pyStripL kv.1⟩ available_keys with
    | some m => upsert ups m ⟨value⟩
    | none => ups

/-- Model of `parse_placeholder_updates`. -/
def parse_placeholder_updates (message : String)
    (available_keys : List String) (allow_fallback : Bool) :
    List (String × String) :=
  let stripped := pyStrip message
  if stripped = "" || available_keys = [] then []
  else
    let updates :=
      (splitSemiNl [] stripped.data).foldl
        (fun ups raw =>
          let line := pyStripL raw
          if line = [] then ups
          else
            match tryMatchColon line with
            | some kv => applyParsedLine available_keys ups kv
            | none =>
              match tryMatchVerb line with
              | some kv => applyParsedLine available_keys ups kv
              | none => ups)
        []
    if updates ≠ [] then updates
    else if allow_fallback then
      match available_keys with
      | [only] => [(only, stripped)]
      | _ => []
    else []

example :
    parse_placeholder_updates "company name: Acme Corp" ["company name"] true =
      [("company name", "Acme Corp")] := by decide
example :
    parse_placeholder_updates "please set address to 12 Main St" ["address"] true =
      [("address", "12 Main St")] := by decide

/-! ### `app/routes/chat.py` -/

/-- The conversational lead-ins stripped by
`_clean_cover_letter_response`. -/
def clean_letter_prefixes : List String :=
  ["here is your cover letter:", "here\x27s your cover letter:",
   "here is the cover letter:", "here\x27s the cover letter:",
   "here is your revised cover letter:", "here\x27s your revised cover letter:",
   "here is the revised cover letter:", "here\x27s the revised cover letter:",
   "i\x27ve drafted this cover letter:", "i\x27ve created this cover letter:",
   "here is a cover letter:", "here\x27s a cover letter:",
   "below is your cover letter:", "below is the cover letter:"]

/-- Model of `_clean_cover_letter_response`. -/
def clean_cover_letter_response (text : String) : String :=
  if text = "" then text
  else
    match clean_letter_prefixes.find? (fun p => isPre p.data (lowerL text.data)) with
    | some p => ⟨(text.data.drop p.data.length).dropWhile isPySpace⟩
    | none => text

/-- Intent keyword list from the chat route. -/
def intent_keywords : List String :=
  ["write", "draft", "create", "make", "generate", "prepare", "craft",
   "need", "want", "require", "update", "edit", "revise", "improve",
   "polish", "assist", "help", "put together"]

def negative_cover_patterns : List String :=
  ["no cover letter", "without cover letter", "don\x27t need a cover letter",
   "do not need a cover letter"]

def negative_resume_patterns : List String :=
  ["no resume", "without resume", "don\x27t need a resume",
   "do not need a resume"]

/-- `has_request_intent` as computed in the chat route. -/
def has_request_intent_flag (message : String) : Bool :=
  let n := pyNormalize message
  intent_keywords.any (fun k => containsStr n k) || containsStr n "please"

/-- `requests_cover_letter` as computed in the chat route (positive term
present and not vetoed by a negation pattern). -/
def requests_cover_letter_flag (message : String) : Bool :=
  let n := pyNormalize message
  (cover_letter_terms.any (fun t => containsStr n t)) &&
    !(negative_cover_patterns.any (fun p => containsStr n p))

/-- `requests_resume` as computed in the chat route. -/
def requests_resume_flag (message : String) : Bool :=
  let n := pyNormalize message
  (resume_terms.any (fun t => containsStr n t)) && has_request_intent_flag message &&
    !(negative_resume_patterns.any (fun p => containsStr n p))

/-! Reply strings of the orchestrator, verbatim from the source. -/

def replyBlockedInResumeMode : String :=
  "While we\x27re working on resume feedback, I won\x27t create PDFs. I can generate PDFs for cover letters—ask me to draft a cover letter when you\x27re ready."

def replyNeedDraftFirst : String :=
  "I\x27ll create a cover letter for you first, then generate the PDF. Please share the job description and company name so I can draft it."

def replyMissingFields (csv : String) : String :=
  "I\x27ll generate your PDF as soon as you provide: " ++ csv ++
    ". Please share these details and I\x27ll create the PDF immediately."

def replyPdfSuccess : String := "Here is your PDF cover letter:"

def replyRenderFailed (err : String) : String :=
  "I encountered a technical error while generating your PDF: " ++ err ++
    "\n\nThis is a temporary issue with the PDF rendering engine. Please try again in a moment, or contact support if the problem persists."

def resumePdfPreface : String :=
  "I don’t create PDFs for resumes yet—only for cover letters."

def replyUploadResumeAsk : String :=
  "Please upload your resume using the file upload panel on the right, and I\x27ll provide detailed feedback."

def replyNoTextResume (name : String) : String :=
  "I found your resume file (" ++ name ++
    "), but I\x27m unable to extract text from it. This might be an image-based PDF or a format I can\x27t read. Please try uploading a text-based PDF or Word document for me to review."

def replyReviewNoUpload : String :=
  "I\x27d be happy to review your resume! However, I don\x27t see any resume uploaded yet. " ++
    replyUploadResumeAsk

def reviewEmptyFallback : String :=
  "I\x27ve reviewed your resume, but I\x27m having trouble generating feedback at the moment. Please try again, or feel free to ask specific questions about your resume."

def reviewFollowUpNote : String :=
  "\n\nIf you\x27d like me to focus on any specific section or have questions about my feedback, just let me know!"

def reviewApiErrorReply : String :=
  "I encountered an error while trying to review your resume. Please try again in a moment. If the problem persists, please check your connection."

def reviewUnexpectedReply : String :=
  "I encountered an unexpected error while reviewing your resume. Please try again."

def reviewPdfApiErrorReply : String :=
  resumePdfPreface ++ " " ++
    "I ran into an error while trying to review your resume. Please try again shortly."

def reviewPdfUnexpectedReply : String :=
  resumePdfPreface ++ " " ++
    "I encountered an unexpected error while reviewing your resume. Please try again."

def replyJdSavedBase : String :=
  "Thanks for sharing the job description! I\x27ve saved it for you. What would you like me to help you with?\n\n• Say \x27draft a cover letter\x27 if you want me to create a tailored cover letter\n• Say \x27help with my resume\x27 if you want resume advice for this role"

def replyNoResumeUpdate : String :=
  "I cannot update your resume before you upload it on the right-hand side. Please add a resume, portfolio, or previous cover letter so I have your background on file."

def replyAskUploadFirst : String :=
  "Are you sure you want me to make a cover letter when I do not have any of your previous work information on file? Please upload a resume, portfolio, or previous cover letter so I can personalize the draft."

def openaiUnavailNote : String :=
  "\n\nI couldn\x27t reach OpenAI to apply that change. Please try again shortly."

def openaiErrPrefix : String :=
  "We hit an issue contacting OpenAI. Please check the server configuration."

/-- Per-request collaborator outcomes: the resume-advice flag derived
from chat history, availability of the language-model client, the
language-model call outcome, the PDF render outcome, the formatted
current date, the clock and the generated letter id. -/
structure ChatEnv where
  inResumeAdviceMode : Bool
  clientAvailable : Bool
  llmResult : Except String String
  renderResult : Except String String
  dateLine : String
  now : Nat
  freshId : String

/-- Server-side state read and written by a chat turn (the upload store
after the MongoDB merge, the cover-letter store and the job-description
store). -/
structure ChatState where
  uploads : List Upload
  letters : List Letter
  jobDescs : String → Option JobDesc

/-- Observable outcome of one chat turn: the reply, download
attachments, the returned cover-letter id, whether the language-model
service was invoked, the resulting stores, and the HTTP-level
status/error information. -/
structure ChatResult where
  reply : String
  downloads : List String
  coverLetterId : Option String
  llmCalled : Bool
  letters : List Letter
  jobDescs : String → Option JobDesc
  status : Nat
  errorCode : Option String

/-- A canned 200 reply with no language-model call and unchanged
stores. -/
def cannedResult (st : ChatState) (reply : String) (cid : Option String) :
    ChatResult :=
  { reply := reply, downloads := [], coverLetterId := cid, llmCalled := false,
    letters := st.letters, jobDescs := st.jobDescs, status := 200,
    errorCode := none }

/-- `str(payload.get("threadId") or "").strip() or None`. -/
def threadOpt (raw : String) : Option String :=
  let t := pyStrip raw
  if t = "" then none else some t

/-- The selected attachment records (`fileIds` resolved against the
upload store, restricted to the caller profile). -/
def attachmentsFor (st : ChatState) (pid : String) (fileIds : List String) :
    List Upload :=
  fileIds.filterMap (fun fid =>
    match st.uploads.find? (fun u => u.id = fid) with
    | some r => if r.profile_id = pid then some r else none
    | none => none)

/-- The `pdf_request == "cover_letter"` sub-branch of the PDF stage. -/
def pdfCoverBranch (env : ChatEnv) (st : ChatState) (active : Option Letter) :
    ChatResult :=
  match active with
  | none => cannedResult st replyNeedDraftFirst none
  | some letter =>
    let missing := find_unknown_placeholders letter.text
    if missing ≠ [] then
      cannedResult st (replyMissingFields (joinCommaSp missing)) (some letter.id)
    else
      match env.renderResult with
      | .ok enc =>
        { reply := replyPdfSuccess,
          downloads := if enc ≠ "" then ["cover-letter-" ++ letter.id ++ ".pdf"] else [],
          coverLetterId := some letter.id, llmCalled := false,
          letters := st.letters, jobDescs := st.jobDescs, status := 200,
          errorCode := none }
      | .error emsg =>
        { reply := replyRenderFailed emsg, downloads := [],
          coverLetterId := some letter.id, llmCalled := false,
          letters := st.letters, jobDescs := st.jobDescs, status := 200,
          errorCode := some "pdf_generation_failed" }

/-- The `pdf_request == "resume"` sub-branch: PDF export for resumes is
policy-disallowed and falls back to a resume review. -/
def pdfResumeBranch (env : ChatEnv) (st : ChatState) (pid : String) :
    ChatResult :=
  match select_resume_upload st.uploads pid with
  | none => cannedResult st (resumePdfPreface ++ " " ++ replyUploadResumeAsk) none
  | some r =>
    if r.text.getD "" = "" then
      cannedResult st (resumePdfPreface ++ " " ++ replyNoTextResume r.name) none
    else if !env.clientAvailable then
      { reply := reviewPdfUnexpectedReply, downloads := [], coverLetterId := none,
        llmCalled := false, letters := st.letters, jobDescs := st.jobDescs,
        status := 500, errorCode := some "Unexpected error during resume review." }
    else
      match env.llmResult with
      | .ok out =>
        let review := (if pyStrip out = "" then reviewEmptyFallback else pyStrip out) ++
          reviewFollowUpNote
        { reply := resumePdfPreface ++ "\n\n" ++ review, downloads := [],
          coverLetterId := none, llmCalled := true, letters := st.letters,
          jobDescs := st.jobDescs, status := 200, errorCode := none }
      | .error _ =>
        { reply := reviewPdfApiErrorReply, downloads := [], coverLetterId := none,
          llmCalled := true, letters := st.letters, jobDescs := st.jobDescs,
          status := 502, errorCode := some "Upstream OpenAI request failed." }

/-- The explicit resume-review stage. -/
def resumeReviewBranch (env : ChatEnv) (st : ChatState) (pid : String) :
    ChatResult :=
  match select_resume_upload st.uploads pid with
  | none => cannedResult st replyReviewNoUpload none
  | some r =>
    if r.text.getD "" = "" then
      cannedResult st (replyNoTextResume r.name) none
    else if !env.clientAvailable then
      { reply := reviewUnexpectedReply, downloads := [], coverLetterId := none,
        llmCalled := false, letters := st.letters, jobDescs := st.jobDescs,
        status := 500, errorCode := some "Unexpected error during resume review." }
    else
      match env.llmResult with
      | .ok out =>
        let review := (if pyStrip out = "" then reviewEmptyFallback else pyStrip out) ++
          reviewFollowUpNote
        { reply := review, downloads := [], coverLetterId := none,
          llmCalled := true, letters := st.letters, jobDescs := st.jobDescs,
          status := 200, errorCode := none }
      | .error _ =>
        { reply := reviewApiErrorReply, downloads := [], coverLetterId := none,
          llmCalled := true, letters := st.letters, jobDescs := st.jobDescs,
          status := 502, errorCode := some "Upstream OpenAI request failed." }

/-- The job-description capture stage. -/
def jdCaptureBranch (env : ChatEnv) (st : ChatState) (pid : String)
    (message : String) (tid : Option String) : ChatResult :=
  let jd' := store_job_description st.jobDescs pid tid message env.now
  let stored := latest_job_description_for_thread jd' pid tid
  let excerptNote :=
    match stored with
    | some j => if j.excerpt ≠ "" then "\n\nSaved highlight: " ++ j.excerpt else ""
    | none => ""
  { reply := replyJdSavedBase ++ excerptNote, downloads := [],
    coverLetterId := none, llmCalled := false, letters := st.letters,
    jobDescs := jd', status := 200, errorCode := none }

/-- The adjustment stage: revise the active letter through the
language model. -/
def adjustStage (env : ChatEnv) (st : ChatState) (pid : String)
    (tid : Option String) (letter : Letter) : ChatResult :=
  if !env.clientAvailable then
    { reply := letter.text ++ letter_follow_up_text (find_unknown_placeholders letter.text) ++
        openaiUnavailNote,
      downloads := [], coverLetterId := some letter.id, llmCalled := false,
      letters := st.letters, jobDescs := st.jobDescs, status := 200,
      errorCode := some "openai_unavailable" }
  else
    match env.llmResult with
    | .ok out =>
      let cleaned := clean_cover_letter_response (pyStrip out)
      let base := if cleaned = "" then letter.text else cleaned
      let r := save_cover_letter env.dateLine env.now env.freshId st.letters pid tid
        base (some letter.id)
      { reply := r.2.1 ++ letter_follow_up_text (find_unknown_placeholders r.2.1),
        downloads := [], coverLetterId := some r.1, llmCalled := true,
        letters := r.2.2, jobDescs := st.jobDescs, status := 200, errorCode := none }
    | .error _ =>
      { reply := letter.text ++ letter_follow_up_text (find_unknown_placeholders letter.text),
        downloads := [], coverLetterId := some letter.id, llmCalled := true,
        letters := st.letters, jobDescs := st.jobDescs, status := 502,
        errorCode := some "Upstream OpenAI request failed." }

/-- The fresh-drafting / conversational fallback stage. -/
def freshDraftStage (env : ChatEnv) (st : ChatState) (pid : String)
    (message : String) (tid : Option String) (attachments : List Upload)
    (has_intent rcl : Bool) (stored_jd : Option JobDesc) : ChatResult :=
  let should_draft := should_draft_cover_letter message attachments has_intent rcl
  let fallback := build_fallback_reply should_draft (attachments ≠ []) stored_jd.isSome
  let follow := if should_draft then LETTER_READY_FOLLOW_UP else ""
  if !env.clientAvailable then
    let base := openaiErrPrefix ++ "\n" ++ "\n" ++ fallback
    if should_draft then
      let r := save_cover_letter env.dateLine env.now env.freshId st.letters pid tid base none
      { reply := r.2.1 ++ follow, downloads := [], coverLetterId := some r.1,
        llmCalled := false, letters := r.2.2, jobDescs := st.jobDescs,
        status := 200, errorCode := some "openai_unavailable" }
    else
      { reply := base, downloads := [], coverLetterId := none, llmCalled := false,
        letters := st.letters, jobDescs := st.jobDescs, status := 200,
        errorCode := some "openai_unavailable" }
  else
    match env.llmResult with
    | .ok out =>
      let base := if pyStrip out = "" then fallback else pyStrip out
      let appears := appears_to_be_cover_letter base
      if should_draft || appears then
        let cleaned := clean_cover_letter_response base
        let r := save_cover_letter env.dateLine env.now env.freshId st.letters pid tid
          cleaned none
        { reply := r.2.1 ++ follow, downloads := [], coverLetterId := some r.1,
          llmCalled := true, letters := r.2.2, jobDescs := st.jobDescs,
          status := 200, errorCode := none }
      else
        { reply := base, downloads := [], coverLetterId := none, llmCalled := true,
          letters := st.letters, jobDescs := st.jobDescs, status := 200,
          errorCode := none }
    | .error _ =>
      if should_draft then
        let r := save_cover_letter env.dateLine env.now env.freshId st.letters pid tid
          fallback none
        { reply := r.2.1 ++ follow, downloads := [], coverLetterId := some r.1,
          llmCalled := true, letters := r.2.2, jobDescs := st.jobDescs,
          status := 502, errorCode := some "Upstream OpenAI request failed." }
      else
        { reply := fallback, downloads := [], coverLetterId := none,
          llmCalled := true, letters := st.letters, jobDescs := st.jobDescs,
          status := 502, errorCode := some "Upstream OpenAI request failed." }

/-- Placeholder fill on the active draft, then adjustment or fresh
drafting. -/
def placeholderStage (env : ChatEnv) (st : ChatState) (pid : String)
    (message : String) (tid : Option String) (attachments : List Upload)
    (has_intent rcl : Bool) (stored_jd : Option JobDesc)
    (active : Option Letter) (adjustment : Bool) : ChatResult :=
  let next : ChatResult :=
    match active with
    | some letter =>
      if adjustment then adjustStage env st pid tid letter
      else freshDraftStage env st pid message tid attachments has_intent rcl stored_jd
    | none => freshDraftStage env st pid message tid attachments has_intent rcl stored_jd
  match active with
  | some letter =>
    let ptokens := collect_unknown_placeholder_tokens letter.text
    let availKeys := ptokens.map (fun e => e.1)
    let ups := parse_placeholder_updates message availKeys (!adjustment)
    let ar := apply_placeholder_updates letter.text ups ptokens
    if ar.2 then
      let r := save_cover_letter env.dateLine env.now env.freshId st.letters pid tid
        ar.1 (some letter.id)
      { reply := r.2.1 ++ letter_follow_up_text (find_unknown_placeholders r.2.1),
        downloads := [], coverLetterId := some r.1, llmCalled := false,
        letters := r.2.2, jobDescs := st.jobDescs, status := 200, errorCode := none }
    else next
  | none => next

/-- Stages after PDF detection: resume review, job-description capture,
the missing-context guard, then the draft-editing stages. -/
def postDetectStage (env : ChatEnv) (st : ChatState) (pid : String)
    (message : String) (tid : Option String) (attachments : List Upload) :
    ChatResult :=
  if detect_resume_review_request message then
    resumeReviewBranch env st pid
  else
    let has_intent := has_request_intent_flag message
    let rcl := requests_cover_letter_flag message
    let rr := requests_resume_flag message
    let stored_jd := latest_job_description_for_thread st.jobDescs pid tid
    let active := latest_cover_letter_for_thread st.letters pid tid
    let adjustment := active.isSome && looks_like_letter_adjustment message
    if message_is_job_description message && !(has_intent || rcl || rr) then
      jdCaptureBranch env st pid message tid
    else
      let profile_has_uploads := st.uploads.any (fun r => r.profile_id = pid)
      if !profile_has_uploads && rr then
        cannedResult st replyNoResumeUpdate none
      else if !profile_has_uploads && rcl && active.isNone then
        cannedResult st replyAskUploadFirst none
      else
        placeholderStage env st pid message tid attachments has_intent rcl stored_jd
          active adjustment

/-- One turn of the `/api/chat` orchestrator (`chat_with_model`), after
session authentication.  `rawMessage` and `rawThreadId` are the payload
fields; the external collaborator outcomes live in `env`. -/
def chatTurn (env : ChatEnv) (st : ChatState) (pid : String)
    (rawMessage rawThreadId : String) (fileIds : List String) : ChatResult :=
  let message := pyStrip rawMessage
  if message = "" then
    { reply := "", downloads := [], coverLetterId := none, llmCalled := false,
      letters := st.letters, jobDescs := st.jobDescs, status := 400,
      errorCode := some "Missing \x27message\x27 in request body." }
  else
    let tid := threadOpt rawThreadId
    let attachments := attachmentsFor st pid fileIds
    match detect_pdf_request message with
    | some pr =>
      let active := latest_cover_letter_for_thread st.letters pid tid
      if env.inResumeAdviceMode && pr == "cover_letter" && active.isNone then
        cannedResult st replyBlockedInResumeMode none
      else if pr == "cover_letter" then
        pdfCoverBranch env st active
      else
        pdfResumeBranch env st pid
    | none => postDetectStage env st pid message tid attachments

/-! ### Helper lemmas: the date-token scanner -/

theorem subnDateF_congr (d : List Char) :
    ∀ f₁ f₂ l, l.length ≤ f₁ → l.length ≤ f₂ →
      subnDateF d f₁ l = subnDateF d f₂ l := by
  intro f₁
  induction f₁ with
  | zero =>
    intro f₂ l h1 _
    have : l = [] := List.length_eq_zero.mp (Nat.le_zero.mp h1)
    subst this
    simp [subnDateF]
  | succ n ih =>
    intro f₂ l h1 h2
    cases l with
    | nil => simp [subnDateF]
    | cons c cs =>
      cases f₂ with
      | zero =>
        simp only [List.length_cons] at h2
        omega
      | succ m =>
        simp only [subnDateF]
        by_cases hp : patAt c cs
        · rw [if_pos hp, if_pos hp,
            ih m (cs.drop 5)
              (by simp only [List.length_drop]; simp only [List.length_cons] at h1; omega)
              (by simp only [List.length_drop]; simp only [List.length_cons] at h2; omega)]
        · rw [if_neg hp, if_neg hp,
            ih m cs
              (by simp only [List.length_cons] at h1; omega)
              (by simp only [List.length_cons] at h2; omega)]

theorem subnDate_nil (d : List Char) : subnDate d [] = ([], 0) := rfl

theorem subnDate_cons (d : List Char) (c : Char) (cs : List Char) :
    subnDate d (c :: cs) =
      if patAt c cs then
        (d ++ (subnDate d (cs.drop 5)).1, (subnDate d (cs.drop 5)).2 + 1)
      else (c :: (subnDate d cs).1, (subnDate d cs).2) := by
  show subnDateF d (c :: cs).length (c :: cs) = _
  simp only [List.length_cons, subnDateF]
  by_cases hp : patAt c cs
  · rw [if_pos hp, if_pos hp,
      subnDateF_congr d cs.length (cs.drop 5).length (cs.drop 5)
        (by simp only [List.length_drop]; omega) (Nat.le_refl _)]
    rfl
  · rw [if_neg hp, if_neg hp]
    rfl

/-- Induction principle following the recursion of `subnDate`. -/
theorem subnDate_ind (P : List Char → Prop) (h0 : P [])
    (h1 : ∀ c cs, patAt c cs = true → P (cs.drop 5) → P (c :: cs))
    (h2 : ∀ c cs, patAt c cs = false → P cs → P (c :: cs)) :
    ∀ l, P l := by
  have key : ∀ n l, l.length ≤ n → P l := by
    intro n
    induction n with
    | zero =>
      intro l h
      rw [List.length_eq_zero.mp (Nat.le_zero.mp h)]
      exact h0
    | succ n ih =>
      intro l h
      cases l with
      | nil => exact h0
      | cons c cs =>
        simp only [List.length_cons] at h
        by_cases hp : patAt c cs
        · exact h1 c cs hp (ih _ (by simp only [List.length_drop]; omega))
        · exact h2 c cs (by simpa using hp) (ih _ (by omega))
  intro l
  exact key l.length l (Nat.le_refl _)

theorem patAt_head {a : Char} {l : List Char} (h : patAt a l = true) : a = '[' := by
  unfold patAt at h
  split at h
  · unfold dateTokHead at h
    simp only [Bool.and_eq_true, decide_eq_true_eq] at h
    exact h.1.1.1.1.1
  · simp at h

theorem patAt_false_of_ne {a : Char} (h : a ≠ '[') (l : List Char) :
    patAt a l = false := by
  cases hp : patAt a l
  · rfl
  · exact absurd (patAt_head hp) h

theorem hasPat_cons (c : Char) (cs : List Char) :
    hasPat (c :: cs) = (patAt c cs || hasPat cs) := rfl

theorem hasPat_append_no_open {d : List Char} (h : '[' ∉ d) (X : List Char) :
    hasPat (d ++ X) = hasPat X := by
  induction d with
  | nil => rfl
  | cons c cs ih =>
    have hc : c ≠ '[' := fun hc => h (hc ▸ List.mem_cons_self _ _)
    have ih' := ih (fun hm => h (List.mem_cons_of_mem _ hm))
    simp only [List.cons_append, hasPat_cons, patAt_false_of_ne hc, Bool.false_or]
    exact ih'

theorem subnDate_no_open {d : List Char} (l : List Char) (h : '[' ∉ l) :
    subnDate d l = (l, 0) := by
  revert h
  refine subnDate_ind (fun l => '[' ∉ l → subnDate d l = (l, 0)) ?_ ?_ ?_ l
  · intro _
    rfl
  · intro c cs hp _ hmem
    exact absurd (patAt_head hp ▸ List.mem_cons_self c cs) hmem
  · intro c cs hp ih hmem
    rw [subnDate_cons, if_neg (by simp [hp]), ih (fun hm => hmem (List.mem_cons_of_mem _ hm))]

/-- Character predicates for the interior of the date token. -/
def isDch (c : Char) : Bool := c = 'd' || c = 'D'
def isAch (c : Char) : Bool := c = 'a' || c = 'A'
def isTch (c : Char) : Bool := c = 't' || c = 'T'
def isEch (c : Char) : Bool := c = 'e' || c = 'E'
def isRB (c : Char) : Bool := c = ']'

/-- Predicate-list prefix match. -/
def ciPre : List (Char → Bool) → List Char → Bool
  | [], _ => true
  | _ :: _, [] => false
  | p :: ps, c :: cs => p c && ciPre ps cs

/-- The five interior predicates of `[date]` after the opening bracket. -/
def datePats : List (Char → Bool) := [isDch, isAch, isTch, isEch, isRB]

theorem patAt_open_eq_ciPre (l : List Char) : patAt '[' l = ciPre datePats l := by
  rcases l with _ | ⟨b, _ | ⟨c, _ | ⟨e, _ | ⟨f, _ | ⟨g, rest⟩⟩⟩⟩⟩ <;>
    simp [patAt, dateTokHead, ciPre, datePats, isDch, isAch, isTch, isEch, isRB,
      Bool.and_assoc]

theorem ciPre_rb_mem {ps : List (Char → Bool)} :
    ∀ l, ciPre (ps ++ [isRB]) l = true → ']' ∈ l.take (ps.length + 1) := by
  induction ps with
  | nil =>
    intro l h
    cases l with
    | nil => simp [ciPre] at h
    | cons c cs =>
      simp only [List.nil_append, ciPre, Bool.and_eq_true] at h
      have : c = ']' := by
        have := h.1
        simp [isRB] at this
        exact this
      simp [this]
  | cons p ps ih =>
    intro l h
    cases l with
    | nil => simp [ciPre] at h
    | cons c cs =>
      simp only [List.cons_append, ciPre, Bool.and_eq_true] at h
      have := ih cs h.2
      simp only [List.length_cons, List.take_succ_cons, List.mem_cons]
      right
      simpa using this

/-- Pattern-suffix transfer: if a suffix of the date pattern (ending in
the closing bracket) matches a prefix of the scanner output, it already
matched a prefix of the input.  Needs the replacement `d` to be at least
five characters long and bracket-free, as every rendered date is. -/
theorem ciPre_transfer {d : List Char} (hclose : ']' ∉ d)
    (hlen : 5 ≤ d.length) :
    ∀ l, ∀ ps : List (Char → Bool), ps.length ≤ 4 →
      ciPre (ps ++ [isRB]) ((subnDate d l).1) = true →
      ciPre (ps ++ [isRB]) l = true := by
  refine subnDate_ind
    (fun l => ∀ ps : List (Char → Bool), ps.length ≤ 4 →
      ciPre (ps ++ [isRB]) ((subnDate d l).1) = true →
      ciPre (ps ++ [isRB]) l = true) ?_ ?_ ?_
  · intro ps _ h
    exact h
  · intro c cs hp _ ps hps h
    rw [subnDate_cons, if_pos hp] at h
    exfalso
    have hmem := ciPre_rb_mem _ h
    rw [List.take_append_of_le_length (by omega)] at hmem
    exact hclose (List.take_subset _ _ hmem)
  · intro c cs hp ih ps hps h
    rw [subnDate_cons, if_neg (by simp [hp])] at h
    cases ps with
    | nil =>
      simp only [List.nil_append, ciPre, Bool.and_eq_true] at h ⊢
      exact ⟨h.1, trivial⟩
    | cons p ps' =>
      simp only [List.cons_append, ciPre, Bool.and_eq_true] at h ⊢
      refine ⟨h.1, ih ps' ?_ h.2⟩
      simp only [List.length_cons] at hps
      omega

/-- The scanner output never contains a date token again (for a
realistic date line). -/
theorem hasPat_subnDate_false {d : List Char} (hopen : '[' ∉ d)
    (hclose : ']' ∉ d) (hlen : 5 ≤ d.length) :
    ∀ l, hasPat ((subnDate d l).1) = false := by
  refine subnDate_ind (fun l => hasPat ((subnDate d l).1) = false) ?_ ?_ ?_
  · rfl
  · intro c cs hp ih
    rw [subnDate_cons, if_pos hp]
    simp only
    rw [hasPat_append_no_open hopen]
    exact ih
  · intro c cs hp ih
    rw [subnDate_cons, if_neg (by simp [hp])]
    simp only [hasPat_cons, ih, Bool.or_false]
    by_cases hc : c = '['
    · subst hc
      cases hb : patAt '[' (subnDate d cs).1
      · rfl
      · exfalso
        rw [patAt_open_eq_ciPre] at hb
        have : ciPre datePats cs = true :=
          ciPre_transfer hclose hlen cs [isDch, isAch, isTch, isEch] (by simp) hb
        rw [← patAt_open_eq_ciPre] at this
        rw [this] at hp
        exact Bool.true_eq_false.mp hp
    · exact patAt_false_of_ne hc _

theorem hasPat_false_subnDate {d : List Char} :
    ∀ l, hasPat l = false → subnDate d l = (l, 0) := by
  refine subnDate_ind (fun l => hasPat l = false → subnDate d l = (l, 0)) ?_ ?_ ?_
  · intro _
    rfl
  · intro c cs hp _ h
    rw [hasPat_cons, hp] at h
    simp at h
  · intro c cs hp ih h
    rw [hasPat_cons, hp, Bool.false_or] at h
    rw [subnDate_cons, if_neg (by simp [hp]), ih h]

theorem hasPat_false_of_count_zero {d : List Char} :
    ∀ l, (subnDate d l).2 = 0 → hasPat l = false := by
  refine subnDate_ind (fun l => (subnDate d l).2 = 0 → hasPat l = false) ?_ ?_ ?_
  · intro _
    rfl
  · intro c cs hp _ h
    rw [subnDate_cons, if_pos hp] at h
    simp at h
  · intro c cs hp ih h
    rw [subnDate_cons, if_neg (by simp [hp])] at h
    simp only at h
    rw [hasPat_cons, hp, Bool.false_or]
    exact ih h

theorem mem_subnDate_of_count_pos {d : List Char} :
    ∀ l, (subnDate d l).2 ≠ 0 → ∀ x ∈ d, x ∈ (subnDate d l).1 := by
  refine subnDate_ind
    (fun l => (subnDate d l).2 ≠ 0 → ∀ x ∈ d, x ∈ (subnDate d l).1) ?_ ?_ ?_
  · intro h
    exact absurd rfl h
  · intro c cs hp _ _ x hx
    rw [subnDate_cons, if_pos hp]
    exact List.mem_append_left _ hx
  · intro c cs hp ih h x hx
    rw [subnDate_cons, if_neg (by simp [hp])] at h ⊢
    simp only at h ⊢
    exact List.mem_cons_of_mem _ (ih h x hx)

theorem open_mem_of_count_pos {d : List Char} :
    ∀ l, (subnDate d l).2 ≠ 0 → '[' ∈ l := by
  refine subnDate_ind (fun l => (subnDate d l).2 ≠ 0 → '[' ∈ l) ?_ ?_ ?_
  · intro h
    exact absurd rfl h
  · intro c cs hp _ _
    rw [patAt_head hp]
    exact List.mem_cons_self _ _
  · intro c cs hp ih h
    rw [subnDate_cons, if_neg (by simp [hp])] at h
    exact List.mem_cons_of_mem _ (ih h)

theorem pyStripL_eq_nil_iff (l : List Char) :
    pyStripL l = [] ↔ ∀ c ∈ l, isPySpace c := by
  unfold pyStripL
  rw [List.reverse_eq_nil_iff, List.dropWhile_eq_nil_iff]
  constructor
  · intro h c hc
    conv at hc => rw [← List.takeWhile_append_dropWhile (p := isPySpace) (l := l)]
    rcases List.mem_append.mp hc with h1 | h2
    · exact List.mem_takeWhile_imp h1
    · exact h _ (List.mem_reverse.mpr h2)
  · intro h c hc
    exact h c (List.dropWhile_sublist _ |>.subset (List.mem_reverse.mp hc))

theorem hasPat_false_of_no_open {l : List Char} (h : '[' ∉ l) :
    hasPat l = false := by
  have := hasPat_append_no_open h (X := [])
  rwa [List.append_nil] at this

theorem exists_nonspace_of_strip_ne_nil {l : List Char} (h : pyStripL l ≠ []) :
    ∃ x ∈ l, isPySpace x = false := by
  by_contra hc
  push_neg at hc
  exact h ((pyStripL_eq_nil_iff l).mpr (fun c hcl => by
    have := hc c hcl
    cases hx : isPySpace c
    · exact absurd hx this
    · rfl))

/-- Claim C6 (amended): `ensure_cover_letter_date` is idempotent for any
realistic date line (non-blank, bracket-free, at least five characters):
a case-insensitive `[date]` token is replaced everywhere on the first
application after which no token remains, a non-blank text without such
a token is returned unchanged, and a blank (empty or whitespace-only)
text yields just the date line. -/
theorem ensure_cover_letter_date_idempotent (d t : String)
    (hopen : '[' ∉ d.data) (hclose : ']' ∉ d.data) (hlen : 5 ≤ d.data.length)
    (hnb : pyStripL d.data ≠ []) :
    ensure_cover_letter_date d (ensure_cover_letter_date d t) =
        ensure_cover_letter_date d t ∧
      (pyStripL t.data = [] → ensure_cover_letter_date d t = d) ∧
      (pyStripL t.data ≠ [] → hasPat t.data = false →
        ensure_cover_letter_date d t = t) ∧
      hasPat (ensure_cover_letter_date d t).data = false := by
  rcases hr : (subnDate d.data t.data).2 with _ | n
  · -- no date token was found in `t`
    have hnopat : hasPat t.data = false := hasPat_false_of_count_zero t.data hr
    by_cases hb : pyStripL t.data = []
    · have hft : ensure_cover_letter_date d t = d := by
        simp [ensure_cover_letter_date, hr, hb]
      have hfd : ensure_cover_letter_date d d = d := by
        simp [ensure_cover_letter_date, subnDate_no_open d.data hopen, hnb]
      refine ⟨by rw [hft, hfd], fun _ => hft, fun hnb' _ => absurd hb hnb',
        by rw [hft]; exact hasPat_false_of_no_open hopen⟩
    · have hft : ensure_cover_letter_date d t = t := by
        simp [ensure_cover_letter_date, hr, hb]
      exact ⟨by rw [hft, hft], fun hb' => absurd hb' hb, fun _ _ => hft,
        by rw [hft]; exact hnopat⟩
  · -- at least one date token was replaced
    have hpos : (subnDate d.data t.data).2 ≠ 0 := by omega
    have hft : ensure_cover_letter_date d t = ⟨(subnDate d.data t.data).1⟩ := by
      simp [ensure_cover_letter_date, hr]
    have hout : hasPat ((subnDate d.data t.data).1) = false :=
      hasPat_subnDate_false hopen hclose hlen t.data
    have hsub2 : subnDate d.data ((subnDate d.data t.data).1) =
        ((subnDate d.data t.data).1, 0) :=
      hasPat_false_subnDate _ hout
    have hnblank : pyStripL ((subnDate d.data t.data).1) ≠ [] := by
      intro hnil
      obtain ⟨x, hxd, hxs⟩ := exists_nonspace_of_strip_ne_nil hnb
      have hxmem : x ∈ (subnDate d.data t.data).1 :=
        mem_subnDate_of_count_pos t.data hpos x hxd
      have := (pyStripL_eq_nil_iff _).mp hnil x hxmem
      rw [hxs] at this
      exact Bool.false_ne_true this
    have hfd2 : ensure_cover_letter_date d ⟨(subnDate d.data t.data).1⟩ =
        ⟨(subnDate d.data t.data).1⟩ := by
      unfold ensure_cover_letter_date
      rw [show (String.mk ((subnDate d.data t.data).1)).data =
        (subnDate d.data t.data).1 from rfl, hsub2]
      simp [hnblank]
    refine ⟨?_, ?_, ?_, by rw [hft]; exact hout⟩
    · rw [hft]
      exact hfd2
    · intro hb
      exfalso
      have hbr := (pyStripL_eq_nil_iff t.data).mp hb '['
        (open_mem_of_count_pos t.data hpos)
      simp [isPySpace] at hbr
    · intro _ hnopat
      exfalso
      have := hasPat_false_subnDate (d := d.data) t.data hnopat
      rw [this] at hr
      simp at hr

/-- Claim C6 counterexample: the claim states that every non-empty text
without a date token is returned unchanged, but a whitespace-only text
is non-empty, token-free, and is replaced by the date line. -/
theorem ensure_cover_letter_date_blank_counterexample :
    (" " : String) ≠ "" ∧ hasPat (" " : String).data = false ∧
      ensure_cover_letter_date "October 12, 2026" " " ≠ " " := by
  exact ⟨by decide, by decide, by decide⟩

/-- Witness for C6 at a concrete date line and letter text. -/
theorem ensure_cover_letter_date_idempotent_witness :
    ('[' ∉ ("October 12, 2026" : String).data) ∧
      (']' ∉ ("October 12, 2026" : String).data) ∧
      (5 ≤ ("October 12, 2026" : String).data.length) ∧
      (pyStripL ("October 12, 2026" : String).data ≠ []) ∧
      (ensure_cover_letter_date "October 12, 2026"
          (ensure_cover_letter_date "October 12, 2026" "Dear [Date], hello") =
        ensure_cover_letter_date "October 12, 2026" "Dear [Date], hello") :=
  ⟨by decide, by decide, by decide, by decide,
    (ensure_cover_letter_date_idempotent "October 12, 2026" "Dear [Date], hello"
      (by decide) (by decide) (by decide) (by decide)).1⟩

/-! ### Helper lemmas: sorted deduplication -/

theorem charToNat_inj {x y : Char} (h : x.toNat = y.toNat) : x = y :=
  Char.ext (UInt32.ext h)

theorem lexLt_irrefl : ∀ l : List Char, lexLt l l = false := by
  intro l
  induction l with
  | nil => rfl
  | cons a as ih => simp [lexLt, Nat.lt_irrefl, ih]

theorem lexLt_trans :
    ∀ a b c : List Char, lexLt a b = true → lexLt b c = true →
      lexLt a c = true := by
  intro a
  induction a with
  | nil =>
    intro b c hab hbc
    cases b <;> cases c <;> simp_all [lexLt]
  | cons x xs ih =>
    intro b c hab hbc
    cases b with
    | nil => simp [lexLt] at hab
    | cons y ys =>
      cases c with
      | nil => simp [lexLt] at hbc
      | cons z zs =>
        simp only [lexLt] at hab hbc ⊢
        split_ifs at hab hbc ⊢ <;>
          first
            | rfl
            | omega
            | exact ih ys zs hab hbc
            | simp_all

theorem lexLt_total :
    ∀ a b : List Char, a ≠ b → lexLt a b = true ∨ lexLt b a = true := by
  intro a
  induction a with
  | nil =>
    intro b hne
    cases b with
    | nil => exact absurd rfl hne
    | cons y ys => exact Or.inl rfl
  | cons x xs ih =>
    intro b hne
    cases b with
    | nil => exact Or.inr rfl
    | cons y ys =>
      by_cases h1 : x.toNat < y.toNat
      · exact Or.inl (by simp [lexLt, h1])
      · by_cases h2 : y.toNat < x.toNat
        · exact Or.inr (by simp [lexLt, h2])
        · have hxy : x = y := charToNat_inj (by omega)
          subst hxy
          have htl : xs ≠ ys := fun h => hne (by rw [h])
          rcases ih ys htl with h | h
          · exact Or.inl (by simp [lexLt, Nat.lt_irrefl, h])
          · exact Or.inr (by simp [lexLt, Nat.lt_irrefl, h])

theorem strLtB_irrefl (a : String) : strLtB a a = false := lexLt_irrefl a.data

theorem strLtB_trans {a b c : String} (h1 : strLtB a b = true)
    (h2 : strLtB b c = true) : strLtB a c = true :=
  lexLt_trans a.data b.data c.data h1 h2

theorem strLtB_total {a b : String} (h : a ≠ b) :
    strLtB a b = true ∨ strLtB b a = true :=
  lexLt_total a.data b.data (fun hd => h (String.ext hd))

theorem ne_of_strLtB {a b : String} (h : strLtB a b = true) : a ≠ b := by
  intro he
  subst he
  rw [strLtB_irrefl] at h
  exact Bool.false_ne_true h

theorem mem_insSorted (s a : String) :
    ∀ l, a ∈ insSorted s l ↔ a = s ∨ a ∈ l := by
  intro l
  induction l with
  | nil => simp [insSorted]
  | cons x xs ih =>
    unfold insSorted
    split_ifs with h1 h2
    · subst h1
      simp only [List.mem_cons]
      try tauto
    · simp only [List.mem_cons]
      try tauto
    · simp only [List.mem_cons, ih]
      try tauto

theorem pairwise_insSorted (s : String) :
    ∀ l, l.Pairwise (fun a b => strLtB a b = true) →
      (insSorted s l).Pairwise (fun a b => strLtB a b = true) := by
  intro l
  induction l with
  | nil =>
    intro _
    simp [insSorted]
  | cons x xs ih =>
    intro h
    rcases List.pairwise_cons.mp h with ⟨hx, hxs⟩
    unfold insSorted
    split_ifs with h1 h2
    · exact h
    · refine List.Pairwise.cons ?_ h
      intro y hy
      rcases List.mem_cons.mp hy with hy | hy
      · rw [hy]
        exact h2
      · exact strLtB_trans h2 (hx y hy)
    · refine List.Pairwise.cons ?_ (ih hxs)
      intro y hy
      rcases (mem_insSorted s y xs).mp hy with hy | hy
      · rw [hy]
        rcases strLtB_total (fun he => h1 he.symm) with ht | ht
        · exact ht
        · exact absurd ht h2
      · exact hx y hy

theorem mem_sortedDedup (a : String) :
    ∀ l, a ∈ sortedDedup l ↔ a ∈ l := by
  intro l
  induction l with
  | nil => simp [sortedDedup]
  | cons x xs ih =>
    show a ∈ insSorted x (sortedDedup xs) ↔ _
    rw [mem_insSorted]
    simp only [List.mem_cons, ih]

theorem pairwise_sortedDedup :
    ∀ l, (sortedDedup l).Pairwise (fun a b => strLtB a b = true) := by
  intro l
  induction l with
  | nil => simp [sortedDedup]
  | cons x xs ih => exact pairwise_insSorted x (sortedDedup xs) ih

theorem nodup_sortedDedup (l : List String) : (sortedDedup l).Nodup :=
  (pairwise_sortedDedup l).imp (fun h => ne_of_strLtB h)

theorem unknownKey_eq_some_iff (tok : List Char) (s : String) :
    unknownKey tok = some s ↔
      lowerL tok ≠ "[date]".data ∧ stripBrSp tok ≠ [] ∧ s = ⟨stripBrSp tok⟩ := by
  unfold unknownKey
  split_ifs with h1 h2 <;> simp_all [eq_comm]

theorem mem_find_unknown_iff (t s : String) :
    s ∈ find_unknown_placeholders t ↔
      ∃ tok, tok ∈ scanAux none t.data ∧ lowerL tok ≠ "[date]".data ∧
        stripBrSp tok ≠ [] ∧ s = ⟨stripBrSp tok⟩ := by
  unfold find_unknown_placeholders
  rw [mem_sortedDedup, List.mem_filterMap]
  constructor
  · rintro ⟨tok, hmem, hk⟩
    exact ⟨tok, hmem, (unknownKey_eq_some_iff tok s).mp hk⟩
  · rintro ⟨tok, hmem, hk⟩
    exact ⟨tok, hmem, (unknownKey_eq_some_iff tok s).mpr hk⟩

theorem scanAux_none_nil_of_no_open :
    ∀ l : List Char, '[' ∉ l → scanAux none l = [] := by
  intro l
  induction l with
  | nil => exact fun _ => rfl
  | cons c cs ih =>
    intro h
    have hc : c ≠ '[' := fun hc => h (hc ▸ List.mem_cons_self _ _)
    show (if c = '[' then scanAux (some []) cs else scanAux none cs) = []
    rw [if_neg hc]
    exact ih (fun hm => h (List.mem_cons_of_mem _ hm))

/-- Claim C3 (amended): `find_unknown_placeholders` returns a strictly
sorted (code-point order), duplicate-free list of the keys obtained from
each scanned bracketed span, excluding exact case-variants of the
reserved `[date]` token, by stripping surrounding brackets and spaces
while preserving letter case; hence two spans differing only in letter
case yield two distinct keys. -/
theorem find_unknown_placeholders_sorted_spec (t : String) :
    (find_unknown_placeholders t).Pairwise (fun a b => strLtB a b = true) ∧
      (find_unknown_placeholders t).Nodup ∧
      (∀ s, s ∈ find_unknown_placeholders t ↔
        ∃ tok, tok ∈ scanAux none t.data ∧ lowerL tok ≠ "[date]".data ∧
          stripBrSp tok ≠ [] ∧ s = ⟨stripBrSp tok⟩) ∧
      find_unknown_placeholders "[Name] [NAME]" = ["NAME", "Name"] :=
  ⟨pairwise_sortedDedup _, nodup_sortedDedup _,
    fun s => mem_find_unknown_iff t s, by decide⟩

/-- Claim C3 counterexample: the two spans `[Name]` and `[NAME]` differ
only in letter case, yet they yield two distinct keys, refuting the
claimed case-folding of keys. -/
theorem find_unknown_placeholders_case_counterexample :
    find_unknown_placeholders "[Name] [NAME]" = ["NAME", "Name"] ∧
      ("NAME" : String) ≠ "Name" :=
  ⟨by decide, by decide⟩

/-- Claim C4 (amended): only exact case-variants of the literal `[date]`
token are excluded from `find_unknown_placeholders`; a span whose
interior carries extra spaces, such as `[date ]`, yields the key
`date`, and a text with no bracket yields the empty list. -/
theorem find_unknown_placeholders_date_spec (t : String) :
    ('[' ∉ t.data → find_unknown_placeholders t = []) ∧
      (∀ s ∈ find_unknown_placeholders t,
        ∃ tok, tok ∈ scanAux none t.data ∧ lowerL tok ≠ "[date]".data ∧
          s = ⟨stripBrSp tok⟩) ∧
      find_unknown_placeholders "[date]" = [] ∧
      find_unknown_placeholders "[DATE]" = [] ∧
      find_unknown_placeholders "[date ]" = ["date"] := by
  refine ⟨?_, ?_, by decide, by decide, by decide⟩
  · intro h
    unfold find_unknown_placeholders
    rw [scanAux_none_nil_of_no_open t.data h]
    rfl
  · intro s hs
    obtain ⟨tok, h1, h2, _, h4⟩ := (mem_find_unknown_iff t s).mp hs
    exact ⟨tok, h1, h2, h4⟩

/-- Claim C4 counterexample: the key `date` is reported for the span
`[date ]`, so `date` is not excluded case-insensitively. -/
theorem find_unknown_placeholders_date_counterexample :
    "date" ∈ find_unknown_placeholders "Dear [date ], hi" := by decide

/-- Witness for C4 at a concrete bracket-free text. -/
theorem find_unknown_placeholders_date_spec_witness :
    ('[' ∉ ("no brackets here" : String).data) ∧
      find_unknown_placeholders "no brackets here" = [] :=
  ⟨by decide,
    (find_unknown_placeholders_date_spec "no brackets here").1 (by decide)⟩

/-- A 300-character text containing exactly one job-posting signal
phrase. -/
def oneSignalText : String := ⟨"responsibilities".data ++ List.replicate 284 'x'⟩

set_option maxRecDepth 8000 in
/-- Claim C7: `looks_like_job_description` holds exactly when at least
two distinct signal phrases of the fixed vocabulary occur in the
lowercased text and the text is longer than 250 characters; in
particular it rejects a 300-character text with a single signal. -/
theorem looks_like_job_description_spec (t : String) :
    (looks_like_job_description t = true ↔
      2 ≤ jobSignalCount (strLower t) ∧ 250 < t.data.length) ∧
      oneSignalText.data.length = 300 ∧
      jobSignalCount (strLower oneSignalText) = 1 ∧
      looks_like_job_description oneSignalText = false := by
  refine ⟨?_, by decide, by decide, by decide⟩
  have hlen : (strLower t).data.length = t.data.length := List.length_map _ _
  simp [looks_like_job_description, hlen, ge_iff_le, gt_iff_lt]

/-! ### Helper lemmas: token scanning and literal replacement -/

theorem scanAux_none_append_no_open {p : List Char} (h : '[' ∉ p) :
    ∀ rest, scanAux none (p ++ rest) = scanAux none rest := by
  induction p with
  | nil => intro rest; rfl
  | cons c cs ih =>
    intro rest
    have hc : c ≠ '[' := fun hc => h (hc ▸ List.mem_cons_self _ _)
    show (if c = '[' then scanAux (some []) (cs ++ rest)
      else scanAux none (cs ++ rest)) = scanAux none rest
    rw [if_neg hc]
    exact ih (fun hm => h (List.mem_cons_of_mem _ hm)) rest

theorem scanAux_none_address (rest : List Char) :
    scanAux none ("[Address]".data ++ rest) =
      "[Address]".data :: scanAux none rest := rfl

theorem isPre_append_self : ∀ l r : List Char, isPre l (l ++ r) = true := by
  intro l
  induction l with
  | nil => intro r; rfl
  | cons c cs ih =>
    intro r
    show (if c = c then isPre cs (cs ++ r) else false) = true
    rw [if_pos rfl]
    exact ih r

theorem replA_append_no_open {ps rep p : List Char} (h : '[' ∉ p) :
    ∀ rest, replA ('[' :: ps) rep (p ++ rest) =
      p ++ replA ('[' :: ps) rep rest := by
  induction p with
  | nil => intro rest; rfl
  | cons c cs ih =>
    intro rest
    have hc : c ≠ '[' := fun hc => h (hc ▸ List.mem_cons_self _ _)
    rw [List.cons_append]
    have hpre : isPre ('[' :: ps) (c :: (cs ++ rest)) = false := by
      show (if '[' = c then isPre ps (cs ++ rest) else false) = false
      rw [if_neg (fun he => hc he.symm)]
    simp only [replA, hpre, Bool.false_eq_true, if_false, List.cons_append]
    rw [ih (fun hm => h (List.mem_cons_of_mem _ hm)) rest]

theorem replA_cons_self (a : Char) (as rep : List Char) :
    ∀ rest, replA (a :: as) rep (a :: as ++ rest) =
      rep ++ replA (a :: as) rep rest := by
  intro rest
  have hpre : isPre (a :: as) (a :: (as ++ rest)) = true := by
    show (if a = a then isPre as (as ++ rest) else false) = true
    rw [if_pos rfl]
    exact isPre_append_self as rest
  simp only [replA, List.cons_append, hpre, if_true]
  congr 1
  have : (a :: as).length - 1 = as.length := by simp
  rw [this, List.drop_left]

theorem replA_no_open {ps rep s : List Char} (h : '[' ∉ s) :
    replA ('[' :: ps) rep s = s := by
  have hrec := @replA_append_no_open ps rep s h []
  have h0 : replA ('[' :: ps) rep [] = [] := by simp [replA]
  rw [h0, List.append_nil] at hrec
  simpa using hrec

theorem containsSub_infix (l pat r : List Char) :
    containsSub (l ++ (pat ++ r)) pat = true := by
  induction l with
  | nil =>
    cases pat with
    | nil =>
      cases r with
      | nil => rfl
      | cons c cs => simp [containsSub, isPre]
    | cons p ps =>
      show (isPre (p :: ps) ((p :: ps) ++ r) || _) = true
      rw [isPre_append_self]
      rfl
  | cons c cs ih =>
    show (_ || containsSub (cs ++ (pat ++ r)) pat) = true
    rw [ih, Bool.or_true]

theorem open_mem_of_containsSub {t ps : List Char}
    (h : containsSub t ('[' :: ps) = true) : '[' ∈ t := by
  induction t with
  | nil => simp [containsSub, isPre] at h
  | cons c cs ih =>
    rcases Bool.or_eq_true_iff.mp h with h1 | h2
    · have : '[' = c := by
        by_contra hne
        rw [show isPre ('[' :: ps) (c :: cs) =
          (if '[' = c then isPre ps cs else false) from rfl, if_neg hne] at h1
        exact Bool.false_ne_true h1
      rw [← this]
      exact List.mem_cons_self _ _
    · exact List.mem_cons_of_mem _ (ih h2)

theorem containsSub_false_of_no_open {t ps : List Char} (h : '[' ∉ t) :
    containsSub t ('[' :: ps) = false := by
  cases hc : containsSub t ('[' :: ps)
  · rfl
  · exact absurd (open_mem_of_containsSub hc) h

theorem replA_self_append (pat rep rest : List Char) (hne : pat ≠ []) :
    replA pat rep (pat ++ rest) = rep ++ replA pat rep rest := by
  cases pat with
  | nil => exact absurd rfl hne
  | cons a as =>
    rw [List.cons_append]
    exact replA_cons_self a as rep rest

theorem replA_skip_append (pat rep p rest : List Char)
    (hpat : pat.head? = some '[') (h : '[' ∉ p) :
    replA pat rep (p ++ rest) = p ++ replA pat rep rest := by
  cases pat with
  | nil => simp at hpat
  | cons a as =>
    have ha : a = '[' := by
      simpa using hpat
    subst ha
    exact replA_append_no_open h rest

theorem replA_skip (pat rep s : List Char) (hpat : pat.head? = some '[')
    (h : '[' ∉ s) : replA pat rep s = s := by
  cases pat with
  | nil => simp at hpat
  | cons a as =>
    have ha : a = '[' := by
      simpa using hpat
    subst ha
    exact replA_no_open h

theorem containsSub_false_head_open {t pat : List Char}
    (hpat : pat.head? = some '[') (h : '[' ∉ t) :
    containsSub t pat = false := by
  cases pat with
  | nil => simp at hpat
  | cons a as =>
    have ha : a = '[' := by
      simpa using hpat
    subst ha
    exact containsSub_false_of_no_open h

theorem addr_text_data (p m s : String) :
    (p ++ "[Address]" ++ m ++ "[Address]" ++ s).data =
      p.data ++ ("[Address]".data ++ (m.data ++ ("[Address]".data ++ s.data))) := by
  simp only [String.data_append, List.append_assoc]

theorem collect_addr (p m s : String) (hp : '[' ∉ p.data) (hm : '[' ∉ m.data)
    (hs : '[' ∉ s.data) :
    collect_unknown_placeholder_tokens (p ++ "[Address]" ++ m ++ "[Address]" ++ s) =
      [("address", ["[Address]", "[Address]"])] := by
  unfold collect_unknown_placeholder_tokens
  rw [addr_text_data, scanAux_none_append_no_open hp, scanAux_none_address,
    scanAux_none_append_no_open hm, scanAux_none_address,
    scanAux_none_nil_of_no_open s.data hs]
  decide

theorem replace_addr (p m s : String) (hp : '[' ∉ p.data) (hm : '[' ∉ m.data)
    (hs : '[' ∉ s.data) :
    pyReplace (p ++ "[Address]" ++ m ++ "[Address]" ++ s).data "[Address]".data
        ['X'] = (p ++ "X" ++ m ++ "X" ++ s).data := by
  have hne : ("[Address]".data : List Char) ≠ [] := by decide
  have hhd : ("[Address]".data : List Char).head? = some '[' := by decide
  show (if "[Address]".data = ([] : List Char) then _ else
    replA "[Address]".data ['X'] (p ++ "[Address]" ++ m ++ "[Address]" ++ s).data) = _
  rw [if_neg hne, addr_text_data,
    replA_skip_append _ _ _ _ hhd hp,
    replA_self_append _ _ _ hne,
    replA_skip_append _ _ _ _ hhd hm,
    replA_self_append _ _ _ hne,
    replA_skip _ _ _ hhd hs]
  have hX : ("X" : String).data = ['X'] := rfl
  simp [String.data_append, hX, List.append_assoc]

/-- Claim C5: in a text that contains the literal token `[Address]` at
two positions (and no other bracket), `collect_unknown_placeholder_tokens`
maps the key `address` to exactly those two literal token occurrences,
and `apply_placeholder_updates` with the update `address := "X"` replaces
both occurrences literally (the token contains the regex metacharacters
`[` and `]` and is still replaced verbatim), reporting that a
replacement happened. -/
theorem collect_apply_address_spec (p m s : String)
    (hp : '[' ∉ p.data) (hm : '[' ∉ m.data) (hs : '[' ∉ s.data) :
    getToks
        (collect_unknown_placeholder_tokens
          (p ++ "[Address]" ++ m ++ "[Address]" ++ s)) "address" =
      ["[Address]", "[Address]"] ∧
    apply_placeholder_updates (p ++ "[Address]" ++ m ++ "[Address]" ++ s)
        [("address", "X")]
        (collect_unknown_placeholder_tokens
          (p ++ "[Address]" ++ m ++ "[Address]" ++ s)) =
      (p ++ "X" ++ m ++ "X" ++ s, true) := by
  have hcol := collect_addr p m s hp hm hs
  have hc1 : containsSub (p ++ "[Address]" ++ m ++ "[Address]" ++ s).data
      "[Address]".data = true := by
    rw [addr_text_data]
    exact containsSub_infix p.data _ _
  have hnew : '[' ∉ (p ++ "X" ++ m ++ "X" ++ s).data := by
    simp only [String.data_append, List.mem_append]
    push_neg
    exact ⟨⟨⟨⟨hp, by decide⟩, hm⟩, by decide⟩, hs⟩
  have hc2 : containsSub (p ++ "X" ++ m ++ "X" ++ s).data "[Address]".data =
      false := containsSub_false_head_open (by decide) hnew
  have hhd : ("[Address]".data : List Char).head? = some '[' := by decide
  refine ⟨by rw [hcol]; decide, ?_⟩
  rw [hcol]
  unfold apply_placeholder_updates
  rw [if_neg (by decide : ¬([("address", "X")] : List (String × String)) = [])]
  simp only [List.foldl_cons, List.foldl_nil]
  have hget : getToks [("address", ["[Address]", "[Address]"])] "address" =
      ["[Address]", "[Address]"] := by decide
  rw [hget]
  rw [if_neg (by decide : ¬(["[Address]", "[Address]"] : List String) = [])]
  simp only [List.foldl_cons, List.foldl_nil]
  have hsafe : (pyStrip "X").data = ['X'] := by decide
  simp only [hc1, if_true, hsafe]
  rw [replace_addr p m s hp hm hs]
  have hmk : (⟨(p ++ "X" ++ m ++ "X" ++ s).data⟩ : String) =
      p ++ "X" ++ m ++ "X" ++ s := rfl
  rw [hmk]
  simp only [hc2, Bool.false_eq_true, if_false]

/-- Witness for C5 at a concrete surrounding text. -/
theorem collect_apply_address_spec_witness :
    ('[' ∉ ("Dear Team, " : String).data) ∧ ('[' ∉ ("\n" : String).data) ∧
      ('[' ∉ (" thanks." : String).data) ∧
      apply_placeholder_updates
          ("Dear Team, " ++ "[Address]" ++ "\n" ++ "[Address]" ++ " thanks.")
          [("address", "X")]
          (collect_unknown_placeholder_tokens
            ("Dear Team, " ++ "[Address]" ++ "\n" ++ "[Address]" ++ " thanks.")) =
        ("Dear Team, " ++ "X" ++ "\n" ++ "X" ++ " thanks.", true) :=
  ⟨by decide, by decide, by decide,
    (collect_apply_address_spec "Dear Team, " "\n" " thanks."
      (by decide) (by decide) (by decide)).2⟩

/-! ### Helper lemmas: Python `max(xs, key=...)` -/

/-- Non-strict lexicographic order on priority pairs. -/
def lexLe (a b : Nat × Nat) : Prop := a.1 < b.1 ∨ (a.1 = b.1 ∧ a.2 ≤ b.2)

theorem lexLe_refl (a : Nat × Nat) : lexLe a a := Or.inr ⟨rfl, Nat.le_refl _⟩

theorem lexLe_trans {a b c : Nat × Nat} (h1 : lexLe a b) (h2 : lexLe b c) :
    lexLe a c := by
  rcases h1 with h1 | ⟨h1, h1'⟩ <;> rcases h2 with h2 | ⟨h2, h2'⟩ <;>
    [exact Or.inl (by omega); exact Or.inl (by omega);
     exact Or.inl (by omega); exact Or.inr ⟨by omega, by omega⟩]

theorem lexLe_of_keyGt_false {a b : Nat × Nat} (h : keyGt a b = false) :
    lexLe a b := by
  unfold keyGt at h
  rw [decide_eq_false_iff_not] at h
  push_neg at h
  unfold lexLe
  omega

theorem lexLe_of_keyGt_true {a b : Nat × Nat} (h : keyGt a b = true) :
    lexLe b a := by
  unfold keyGt at h
  rw [decide_eq_true_eq] at h
  unfold lexLe
  omega

theorem pyMaxBy_spec {α : Type} (key : α → Nat × Nat) :
    ∀ (rs : List α) (best : α),
      (pyMaxBy key best rs = best ∨ pyMaxBy key best rs ∈ rs) ∧
      lexLe (key best) (key (pyMaxBy key best rs)) ∧
      ∀ x ∈ rs, lexLe (key x) (key (pyMaxBy key best rs)) := by
  intro rs
  induction rs with
  | nil => exact fun best => ⟨Or.inl rfl, lexLe_refl _, by simp⟩
  | cons r rs ih =>
    intro best
    rw [show pyMaxBy key best (r :: rs) =
      pyMaxBy key (if keyGt (key r) (key best) then r else best) rs from rfl]
    by_cases hg : keyGt (key r) (key best) = true
    · rw [if_pos hg]
      obtain ⟨hmem, hbest, hall⟩ := ih r
      refine ⟨?_, ?_, ?_⟩
      · rcases hmem with h | h
        · exact Or.inr (List.mem_cons.mpr (Or.inl h))
        · exact Or.inr (List.mem_cons_of_mem _ h)
      · exact lexLe_trans (lexLe_of_keyGt_true hg) hbest
      · intro x hx
        rcases List.mem_cons.mp hx with hx | hx
        · rw [hx]
          exact hbest
        · exact hall x hx
    · rw [if_neg hg]
      obtain ⟨hmem, hbest, hall⟩ := ih best
      refine ⟨?_, hbest, ?_⟩
      · rcases hmem with h | h
        · exact Or.inl h
        · exact Or.inr (List.mem_cons_of_mem _ h)
      · intro x hx
        rcases List.mem_cons.mp hx with hx | hx
        · rw [hx]
          exact lexLe_trans (lexLe_of_keyGt_false (by simpa using hg)) hbest
        · exact hall x hx

/-- A file named `resume.pdf`, uploaded earlier. -/
def upResumePdf : Upload :=
  { id := "f1", profile_id := "p1", name := "resume.pdf",
    mime_type := "application/pdf", uploaded_at := 50, size := 10,
    text := none }

/-- A file with no resume signal, uploaded later. -/
def upNotesDocx : Upload :=
  { id := "f2", profile_id := "p1", name := "notes.docx",
    mime_type := "application/msword", uploaded_at := 100, size := 10,
    text := none }

/-- A non-PDF upload with no filename signal, uploaded earlier. -/
def upPlainTxt : Upload :=
  { id := "f3", profile_id := "p1", name := "one.txt",
    mime_type := "text/plain", uploaded_at := 100, size := 10, text := none }

/-- A plain PDF upload with no filename signal, uploaded later. -/
def upLaterPdf : Upload :=
  { id := "f4", profile_id := "p1", name := "two.pdf",
    mime_type := "application/pdf", uploaded_at := 300, size := 10,
    text := none }

/-- Claim C8: among a profile\x27s uploads, `select_resume_upload` returns
a record maximal under the lexicographic order on (priority,
uploaded_at) with priority 2 for a filename containing resume/cv, 1 for
a PDF mime type, 0 otherwise; `resume.pdf` therefore beats an
earlier-listed later-uploaded `notes.docx`, and a later plain PDF beats
an earlier non-PDF. -/
theorem select_resume_upload_spec :
    (∀ (uploads : List Upload) (pid : String) (r : Upload) (rs : List Upload),
      uploads.filter (fun u => u.profile_id = pid) = r :: rs →
      ∃ w, select_resume_upload uploads pid = some w ∧
        w ∈ uploads.filter (fun u => u.profile_id = pid) ∧
        ∀ x ∈ uploads.filter (fun u => u.profile_id = pid),
          lexLe (uploadSortKey x) (uploadSortKey w)) ∧
    select_resume_upload [upNotesDocx, upResumePdf] "p1" = some upResumePdf ∧
    select_resume_upload [upPlainTxt, upLaterPdf] "p1" = some upLaterPdf := by
  refine ⟨?_, by decide, by decide⟩
  intro uploads pid r rs hfil
  unfold select_resume_upload
  rw [hfil]
  obtain ⟨hmem, hbest, hall⟩ := pyMaxBy_spec uploadSortKey rs r
  refine ⟨pyMaxBy uploadSortKey r rs, rfl, ?_, ?_⟩
  · rcases hmem with h | h
    · exact List.mem_cons.mpr (Or.inl h)
    · exact List.mem_cons_of_mem _ h
  · intro x hx
    rcases List.mem_cons.mp hx with hx | hx
    · rw [hx]
      exact hbest
    · exact hall x hx

/-- Witness for C8 at a concrete upload store. -/
theorem select_resume_upload_spec_witness :
    ([upNotesDocx, upResumePdf].filter (fun u => u.profile_id = "p1") =
        upNotesDocx :: [upResumePdf]) ∧
      ∃ w, select_resume_upload [upNotesDocx, upResumePdf] "p1" = some w ∧
        w ∈ [upNotesDocx, upResumePdf].filter (fun u => u.profile_id = "p1") ∧
        ∀ x ∈ [upNotesDocx, upResumePdf].filter (fun u => u.profile_id = "p1"),
          lexLe (uploadSortKey x) (uploadSortKey w) :=
  ⟨by decide,
    select_resume_upload_spec.1 [upNotesDocx, upResumePdf] "p1" upNotesDocx
      [upResumePdf] (by decide)⟩

/-- Claim C9: storing a job description whose whitespace-collapsed text
is non-blank overwrites the single slot for the (profile, normalized
thread) key with a snapshot whose text is the collapsed text truncated
to 5000 characters (with an excerpt of at most 600 characters), leaves
every other key untouched, and is exactly what
`latest_job_description_for_thread` then returns. -/
theorem store_job_description_spec (store : String → Option JobDesc)
    (pid : String) (tid : Option String) (text : String) (now : Nat)
    (h : pyCollapse text ≠ "") :
    ∃ jd, store_job_description store pid tid text now (threadKey pid tid) =
        some jd ∧
      jd.text = ⟨(pyCollapse text).data.take JOB_DESCRIPTION_MAX_LENGTH⟩ ∧
      jd.text.data.length ≤ 5000 ∧
      jd.excerpt.data.length ≤ 600 ∧
      (∀ k, k ≠ threadKey pid tid →
        store_job_description store pid tid text now k = store k) ∧
      latest_job_description_for_thread
          (store_job_description store pid tid text now) pid tid = some jd := by
  have hstore : store_job_description store pid tid text now =
      fun k =>
        if k = threadKey pid tid then
          some { profile_id := pid, thread_id := normThread tid,
                 text := ⟨(pyCollapse text).data.take JOB_DESCRIPTION_MAX_LENGTH⟩,
                 excerpt := make_text_excerpt
                   ⟨(pyCollapse text).data.take JOB_DESCRIPTION_MAX_LENGTH⟩ 600,
                 stored_at := now }
        else store k := by
    unfold store_job_description
    rw [if_neg h]
  refine ⟨⟨pid, normThread tid,
      ⟨(pyCollapse text).data.take JOB_DESCRIPTION_MAX_LENGTH⟩,
      make_text_excerpt
        ⟨(pyCollapse text).data.take JOB_DESCRIPTION_MAX_LENGTH⟩ 600,
      now⟩, ?_, rfl, ?_, ?_, ?_, ?_⟩
  · rw [hstore]
    simp
  · show ((pyCollapse text).data.take JOB_DESCRIPTION_MAX_LENGTH).length ≤ 5000
    rw [List.length_take]
    exact Nat.le_trans (Nat.min_le_left _ _) (Nat.le_refl _)
  · show (make_text_excerpt
      ⟨(pyCollapse text).data.take JOB_DESCRIPTION_MAX_LENGTH⟩ 600).data.length ≤ 600
    unfold make_text_excerpt
    split_ifs
    · simp
    · show ((pyCollapse _).data.take 600).length ≤ 600
      rw [List.length_take]
      exact Nat.le_trans (Nat.min_le_left _ _) (Nat.le_refl _)
  · intro k hk
    rw [hstore]
    simp only [if_neg hk]
  · unfold latest_job_description_for_thread
    rw [hstore]
    simp

/-- Witness for C9 at a concrete store and text. -/
theorem store_job_description_spec_witness :
    (pyCollapse "  hello   world  " ≠ "") ∧
      ∃ jd, store_job_description (fun _ => none) "p1" (some "t1")
            "  hello   world  " 5 (threadKey "p1" (some "t1")) = some jd ∧
          jd.text = ⟨(pyCollapse "  hello   world  ").data.take
            JOB_DESCRIPTION_MAX_LENGTH⟩ ∧
          jd.text.data.length ≤ 5000 ∧
          jd.excerpt.data.length ≤ 600 ∧
          (∀ k, k ≠ threadKey "p1" (some "t1") →
            store_job_description (fun _ => none) "p1" (some "t1")
              "  hello   world  " 5 k = (fun _ => none : String → Option JobDesc) k) ∧
          latest_job_description_for_thread
              (store_job_description (fun _ => none) "p1" (some "t1")
                "  hello   world  " 5) "p1" (some "t1") = some jd :=
  ⟨by decide,
    store_job_description_spec (fun _ => none) "p1" (some "t1")
      "  hello   world  " 5 (by decide)⟩

/-- Claim C10: any message whose lowercased, whitespace-collapsed form
contains the substring `pdf` is classified as a PDF request — `resume`
when a resume/CV term is present, otherwise `cover_letter` — and no
negation phrasing suppresses the classification. -/
theorem detect_pdf_request_contains_pdf (msg : String)
    (h : containsStr (pyNormalize msg) "pdf" = true) :
    detect_pdf_request msg =
      some (if resume_terms.any (fun t => containsStr (pyNormalize msg) t)
        then "resume" else "cover_letter") ∧
    detect_pdf_request "I don\x27t want a pdf" = some "cover_letter" := by
  refine ⟨?_, by decide⟩
  have hne : pyNormalize msg ≠ "" := by
    intro he
    rw [he] at h
    exact absurd h (by decide)
  unfold detect_pdf_request
  rw [if_neg hne]
  have hany : pdf_patterns.any (fun p => containsStr (pyNormalize msg) p) = true :=
    List.any_eq_true.mpr ⟨"pdf", by decide, h⟩
  rw [hany]
  simp only [if_true]
  by_cases hres : resume_terms.any (fun t => containsStr (pyNormalize msg) t) = true
  · simp [hres]
  · simp only [Bool.not_eq_true] at hres
    simp only [hres, Bool.false_eq_true, if_false]
    by_cases hcov :
        cover_letter_terms.any (fun p => containsStr (pyNormalize msg) p) = true
    · simp [hcov]
    · simp only [Bool.not_eq_true] at hcov
      simp [hcov]

/-- Witness for C10: a negated phrasing still classifies as a
cover-letter PDF request. -/
theorem detect_pdf_request_contains_pdf_witness :
    containsStr (pyNormalize "I don\x27t want a pdf") "pdf" = true ∧
      detect_pdf_request "I don\x27t want a pdf" = some "cover_letter" :=
  ⟨by decide,
    (detect_pdf_request_contains_pdf "I don\x27t want a pdf" (by decide)).2⟩

/-! ### Orchestrator claims -/

/-- Claim C1: a chat turn classified as a cover-letter PDF request with
no active draft for the (profile, thread) and resume-advice mode unset
replies by asking for the job description and company first, attaches
no download, creates no cover-letter draft, and never calls the
language-model service. -/
theorem chat_pdf_request_no_draft_spec (env : ChatEnv) (st : ChatState)
    (pid rawMessage rawThreadId : String) (fileIds : List String)
    (hdetect : detect_pdf_request (pyStrip rawMessage) = some "cover_letter")
    (hmode : env.inResumeAdviceMode = false)
    (hactive : latest_cover_letter_for_thread st.letters pid
      (threadOpt rawThreadId) = none) :
    (chatTurn env st pid rawMessage rawThreadId fileIds).reply =
        replyNeedDraftFirst ∧
      (chatTurn env st pid rawMessage rawThreadId fileIds).downloads = [] ∧
      (chatTurn env st pid rawMessage rawThreadId fileIds).coverLetterId = none ∧
      (chatTurn env st pid rawMessage rawThreadId fileIds).llmCalled = false ∧
      (chatTurn env st pid rawMessage rawThreadId fileIds).letters = st.letters := by
  have hne : pyStrip rawMessage ≠ "" := by
    intro he
    rw [he] at hdetect
    exact absurd hdetect (by decide)
  have hchat : chatTurn env st pid rawMessage rawThreadId fileIds =
      cannedResult st replyNeedDraftFirst none := by
    simp only [chatTurn]
    rw [if_neg hne, hdetect]
    simp only [hmode, Bool.false_and, Bool.false_eq_true, if_false]
    rw [if_pos (by decide : (("cover_letter" : String) == "cover_letter") = true)]
    simp only [pdfCoverBranch, hactive]
  rw [hchat]
  exact ⟨rfl, rfl, rfl, rfl, rfl⟩

/-- A concrete environment for witnesses: advice mode off, client
available. -/
def env0 : ChatEnv :=
  { inResumeAdviceMode := false, clientAvailable := true,
    llmResult := .ok "ok", renderResult := .ok "QQ==",
    dateLine := "October 12, 2026", now := 0, freshId := "letter-1" }

/-- A concrete empty server state for witnesses. -/
def st0 : ChatState :=
  { uploads := [], letters := [], jobDescs := fun _ => none }

/-- Witness for C1: the turn "create pdf" on an empty state. -/
theorem chat_pdf_request_no_draft_spec_witness :
    detect_pdf_request (pyStrip "create pdf") = some "cover_letter" ∧
      env0.inResumeAdviceMode = false ∧
      latest_cover_letter_for_thread st0.letters "p1" (threadOpt "") = none ∧
      (chatTurn env0 st0 "p1" "create pdf" "" []).reply = replyNeedDraftFirst :=
  ⟨by decide, rfl, rfl,
    (chat_pdf_request_no_draft_spec env0 st0 "p1" "create pdf" "" []
      (by decide) rfl rfl).1⟩

theorem detect_pdf_request_values (m : String) :
    detect_pdf_request m = none ∨ detect_pdf_request m = some "resume" ∨
      detect_pdf_request m = some "cover_letter" := by
  simp only [detect_pdf_request]
  split_ifs <;> simp

/-- The six canned guidance replies a cover-letter request can receive
when the profile has no uploads and no draft exists. -/
def noUploadGuidanceReplies : List String :=
  [replyBlockedInResumeMode, replyNeedDraftFirst,
   resumePdfPreface ++ " " ++ replyUploadResumeAsk, replyReviewNoUpload,
   replyNoResumeUpdate, replyAskUploadFirst]

/-- Claim C2: when the profile has no uploads at all, the message
requests a cover letter (cover-letter term present and not vetoed), and
no active draft exists for the thread, the turn returns one of the
canned refusal/guidance replies, creates no cover-letter draft, and
never calls the language-model service. -/
theorem chat_no_uploads_cover_letter_spec (env : ChatEnv) (st : ChatState)
    (pid rawMessage rawThreadId : String) (fileIds : List String)
    (hup : ∀ u ∈ st.uploads, u.profile_id ≠ pid)
    (hrcl : requests_cover_letter_flag (pyStrip rawMessage) = true)
    (hactive : latest_cover_letter_for_thread st.letters pid
      (threadOpt rawThreadId) = none) :
    (chatTurn env st pid rawMessage rawThreadId fileIds).llmCalled = false ∧
      (chatTurn env st pid rawMessage rawThreadId fileIds).letters = st.letters ∧
      (chatTurn env st pid rawMessage rawThreadId fileIds).coverLetterId = none ∧
      (chatTurn env st pid rawMessage rawThreadId fileIds).downloads = [] ∧
      (chatTurn env st pid rawMessage rawThreadId fileIds).reply ∈
        noUploadGuidanceReplies := by
  have hne : pyStrip rawMessage ≠ "" := by
    intro he
    rw [he] at hrcl
    exact absurd hrcl (by decide)
  have hfil : st.uploads.filter (fun u => u.profile_id = pid) = [] :=
    List.filter_eq_nil.mpr (fun u hu => by simpa using hup u hu)
  have hsel : select_resume_upload st.uploads pid = none := by
    unfold select_resume_upload
    rw [hfil]
  have hhas : st.uploads.any (fun r => r.profile_id = pid) = false := by
    rw [Bool.eq_false_iff]
    intro hany
    obtain ⟨u, hu, hp⟩ := List.any_eq_true.mp hany
    exact hup u hu (by simpa using hp)
  have key : ∃ R, R ∈ noUploadGuidanceReplies ∧
      chatTurn env st pid rawMessage rawThreadId fileIds =
        cannedResult st R none := by
    simp only [chatTurn]
    rw [if_neg hne]
    rcases detect_pdf_request_values (pyStrip rawMessage) with hd | hd | hd
    · rw [hd]
      simp only [postDetectStage]
      by_cases hrev : detect_resume_review_request (pyStrip rawMessage) = true
      · simp only [hrev, if_true]
        simp only [resumeReviewBranch, hsel]
        exact ⟨replyReviewNoUpload, by simp [noUploadGuidanceReplies], rfl⟩
      · simp only [Bool.not_eq_true] at hrev
        simp only [hrev, Bool.false_eq_true, if_false]
        rw [if_neg (by rw [hrcl]; simp)]
        by_cases hrr : requests_resume_flag (pyStrip rawMessage) = true
        · rw [if_pos (by rw [hhas, hrr]; rfl)]
          exact ⟨replyNoResumeUpdate, by simp [noUploadGuidanceReplies], rfl⟩
        · simp only [Bool.not_eq_true] at hrr
          rw [if_neg (by rw [hhas, hrr]; simp)]
          rw [if_pos (by rw [hhas, hrcl, hactive]; rfl)]
          exact ⟨replyAskUploadFirst, by simp [noUploadGuidanceReplies], rfl⟩
    · rw [hd]
      have hrc : (("resume" : String) == "cover_letter") = false := by decide
      simp only [hrc, Bool.and_false, Bool.false_and, Bool.false_eq_true,
        if_false, pdfResumeBranch, hsel]
      exact ⟨resumePdfPreface ++ " " ++ replyUploadResumeAsk,
        by simp [noUploadGuidanceReplies], rfl⟩
    · rw [hd]
      have hcc : (("cover_letter" : String) == "cover_letter") = true := by decide
      by_cases hmode : env.inResumeAdviceMode = true
      · simp only [hcc, hmode, hactive, Option.isNone_none, Bool.and_true,
          Bool.true_and, if_true]
        exact ⟨replyBlockedInResumeMode, by simp [noUploadGuidanceReplies], rfl⟩
      · simp only [Bool.not_eq_true] at hmode
        simp only [hcc, hmode, Bool.false_and, Bool.and_true, Bool.true_and,
          Bool.false_eq_true, if_false, if_true, pdfCoverBranch, hactive]
        exact ⟨replyNeedDraftFirst, by simp [noUploadGuidanceReplies], rfl⟩
  obtain ⟨R, hRmem, hR⟩ := key
  rw [hR]
  exact ⟨rfl, rfl, rfl, rfl, hRmem⟩

/-- Witness for C2: "write me a cover letter" on an empty state. -/
theorem chat_no_uploads_cover_letter_spec_witness :
    (∀ u ∈ st0.uploads, u.profile_id ≠ "p1") ∧
      requests_cover_letter_flag (pyStrip "write me a cover letter") = true ∧
      latest_cover_letter_for_thread st0.letters "p1" (threadOpt "") = none ∧
      (chatTurn env0 st0 "p1" "write me a cover letter" "" []).llmCalled = false ∧
      (chatTurn env0 st0 "p1" "write me a cover letter" "" []).letters =
        st0.letters ∧
      (chatTurn env0 st0 "p1" "write me a cover letter" "" []).reply ∈
        noUploadGuidanceReplies :=
  ⟨by simp [st0], by decide, rfl,
    (chat_no_uploads_cover_letter_spec env0 st0 "p1" "write me a cover letter" ""
      [] (by simp [st0]) (by decide) rfl).1,
    (chat_no_uploads_cover_letter_spec env0 st0 "p1" "write me a cover letter" ""
      [] (by simp [st0]) (by decide) rfl).2.1,
    (chat_no_uploads_cover_letter_spec env0 st0 "p1" "write me a cover letter" ""
      [] (by simp [st0]) (by decide) rfl).2.2.2.2⟩
